import Mathlib

/-!
Verification development for the AI-analysis core of the paperless-ai fork:
a shallow embedding of `services/ollamaService.js` (the Ollama provider) and
of the custom OpenAI-compatible provider service, together with the pieces of
the JavaScript runtime they rely on (`JSON.parse`, `JSON.stringify`, the
specific regular-expression passes the services apply to model output).

Conventions of the embedding:
* JavaScript values flowing through the analysis pipeline are modelled by the
  inductive `Json` below; `undefined` property reads are modelled by
  `Option Json` (`none` = absent).
* JavaScript strings are modelled by `String`; lengths count characters
  (the sources never rely on UTF-16 surrogate-pair counting).
* JSON numbers are modelled as integers; no input considered in this
  development contains fractional or exponent literals.
* Asynchronous calls are modelled as pure data: the backend's behaviour is an
  explicit argument of each analysis function, and filesystem side effects
  (thumbnail cache, prompt/response logs) are recorded as events.
* `try { ... } catch (error) { ... }` is modelled with `Except String`, the
  error being the thrown message (`error.message`).
-/

/-- The JSON/JavaScript value model used throughout the embedding. -/
inductive Json where
  | null : Json
  | bool (b : Bool) : Json
  | num (n : Int) : Json
  | str (s : String) : Json
  | arr (elems : List Json) : Json
  | obj (fields : List (String × Json)) : Json
deriving Repr

/-- Double-quote character. -/
def qChar : Char := Char.ofNat 34

/-- Backslash character. -/
def bsChar : Char := Char.ofNat 92

/-- Left curly brace character. -/
def lbChar : Char := Char.ofNat 123

/-- Right curly brace character. -/
def rbChar : Char := Char.ofNat 125

/-- Backtick character. -/
def btChar : Char := Char.ofNat 96

/-- Single-quote character. -/
def sqChar : Char := Char.ofNat 39

/-- Whitespace accepted by `JSON.parse` between tokens. -/
def isJsonWs (c : Char) : Bool :=
  c = ' ' || c = '\t' || c = '\n' || c = '\r'

/-- Whitespace matched by the regex class `\s` (ASCII fragment). -/
def isRegexWs (c : Char) : Bool :=
  c = ' ' || c = '\t' || c = '\n' || c = '\r' || c = Char.ofNat 11 || c = Char.ofNat 12

/-- Drop leading JSON whitespace. -/
def skipWsChars : List Char → List Char
  | [] => []
  | c :: cs => if isJsonWs c then skipWsChars cs else c :: cs

/-- JavaScript truthiness of a value. -/
def jsTruthy : Json → Bool
  | .null => false
  | .bool b => b
  | .num n => n != 0
  | .str s => s ≠ ""
  | .arr _ => true
  | .obj _ => true

/-- JavaScript truthiness of a possibly-absent (`undefined`) value. -/
def jsTruthyOpt : Option Json → Bool
  | none => false
  | some j => jsTruthy j

/-- First binding of a key in a field list. -/
def lookupPair : List (String × Json) → String → Option (String × Json)
  | [], _ => none
  | p :: fs, k => if p.1 == k then some p else lookupPair fs k

/-- Whether a field list binds a key. -/
def hasKey : List (String × Json) → String → Bool
  | [], _ => false
  | p :: fs, k => p.1 == k || hasKey fs k

/-- Property read `j.k`: `undefined` (`none`) when `j` is not an object or
lacks the key. Objects built by this development have at most one binding per
key, so first-match lookup is the JavaScript semantics. -/
def jsonGet : Json → String → Option Json
  | .obj fields, k =>
    match lookupPair fields k with
    | some p => some p.2
    | none => none
  | _, _ => none

/-- Assign into a field list: replace the value of an existing key in place
(JavaScript property assignment keeps the original insertion position),
otherwise append the new binding. -/
def setPairs (fields : List (String × Json)) (k : String) (v : Json) :
    List (String × Json) :=
  if hasKey fields k then
    fields.map (fun p => if p.1 == k then (k, v) else p)
  else
    fields ++ [(k, v)]

/-- Property assignment `j.k = v`. Assignment to a non-object primitive is a
silent no-op in non-strict JavaScript; the pipeline only assigns to objects. -/
def jsonSet : Json → String → Json → Json
  | .obj fields, k, v => .obj (setPairs fields k v)
  | j, _, _ => j

/-- Keys of an object, in property order. -/
def jsonKeys : Json → List String
  | .obj fields => fields.map (fun p => p.1)
  | _ => []

/-- Hexadecimal digit test. -/
def isHexChar (c : Char) : Bool :=
  c.isDigit || ('a' ≤ c && c ≤ 'f') || ('A' ≤ c && c ≤ 'F')

/-- Digits of a decimal literal. -/
def digitsToNat (ds : List Char) : Nat :=
  ds.foldl (fun acc c => acc * 10 + (c.toNat - 48)) 0

/-- Body of a JSON string literal (after the opening quote): returns the
decoded characters and the remainder after the closing quote. Unescaped
control characters are rejected, as in `JSON.parse`. -/
def parseStringChars : List Char → Option (List Char × List Char)
  | [] => none
  | c :: cs =>
    if c = qChar then some ([], cs)
    else if c = bsChar then
      match cs with
      | [] => none
      | e :: cs' =>
        if e = 'u' then
          match cs' with
          | h1 :: h2 :: h3 :: h4 :: cs'' =>
            if isHexChar h1 && isHexChar h2 && isHexChar h3 && isHexChar h4 then
              match parseStringChars cs'' with
              | some (acc, rest) =>
                let code := ((h1.toLower.toNat - (if h1.isDigit then 48 else 87)) * 4096 +
                  (h2.toLower.toNat - (if h2.isDigit then 48 else 87)) * 256 +
                  (h3.toLower.toNat - (if h3.isDigit then 48 else 87)) * 16 +
                  (h4.toLower.toNat - (if h4.isDigit then 48 else 87)))
                some (Char.ofNat code :: acc, rest)
              | none => none
            else none
          | _ => none
        else
          let ec : Option Char :=
            if e = qChar then some qChar
            else if e = bsChar then some bsChar
            else if e = '/' then some '/'
            else if e = 'n' then some '\n'
            else if e = 't' then some '\t'
            else if e = 'r' then some '\r'
            else if e = 'b' then some (Char.ofNat 8)
            else if e = 'f' then some (Char.ofNat 12)
            else none
          match ec with
          | none => none
          | some d =>
            match parseStringChars cs' with
            | some (acc, rest) => some (d :: acc, rest)
            | none => none
    else if c.toNat < 32 then none
    else
      match parseStringChars cs with
      | some (acc, rest) => some (c :: acc, rest)
      | none => none

/-- Build an object's field list from its parsed members in order: each member
is assigned left to right, so a duplicate key keeps the earlier position with
the later value, as in `JSON.parse`. -/
def assignFold (pairs : List (String × Json)) : List (String × Json) :=
  pairs.foldl (fun acc p => setPairs acc p.1 p.2) []

/-- Integer literal: optional minus sign followed by digits. The sources never
feed fractional or exponent literals to the points this development proves
about, so those forms are rejected rather than modelled. -/
def parseIntLit (cs : List Char) : Option (Int × List Char) :=
  match cs with
  | '-' :: rest =>
    let ds := rest.takeWhile Char.isDigit
    if ds.isEmpty then none
    else some (-(digitsToNat ds : Int), rest.dropWhile Char.isDigit)
  | _ =>
    let ds := cs.takeWhile Char.isDigit
    if ds.isEmpty then none
    else some ((digitsToNat ds : Int), cs.dropWhile Char.isDigit)

mutual
/-- Fuel-indexed JSON value grammar (the recursion of `JSON.parse`). -/
def parseJsonVal : Nat → List Char → Option (Json × List Char)
  | 0, _ => none
  | fuel + 1, cs =>
    match skipWsChars cs with
    | [] => none
    | c :: rest =>
      if c = 'n' then
        match rest with
        | 'u' :: 'l' :: 'l' :: rest' => some (.null, rest')
        | _ => none
      else if c = 't' then
        match rest with
        | 'r' :: 'u' :: 'e' :: rest' => some (.bool true, rest')
        | _ => none
      else if c = 'f' then
        match rest with
        | 'a' :: 'l' :: 's' :: 'e' :: rest' => some (.bool false, rest')
        | _ => none
      else if c = qChar then
        match parseStringChars rest with
        | some (body, rest') => some (.str ⟨body⟩, rest')
        | none => none
      else if c = '[' then
        match skipWsChars rest with
        | ']' :: rest' => some (.arr [], rest')
        | rest' =>
          match parseJsonArrItems fuel rest' with
          | some (items, rest'') => some (.arr items, rest'')
          | none => none
      else if c = lbChar then
        match skipWsChars rest with
        | r :: rest' =>
          if r = rbChar then some (.obj [], rest')
          else
            match parseJsonObjItems fuel (r :: rest') with
            | some (fields, rest'') => some (.obj (assignFold fields), rest'')
            | none => none
        | [] => none
      else if c = '-' || c.isDigit then
        match parseIntLit (c :: rest) with
        | some (n, rest') => some (.num n, rest')
        | none => none
      else none

/-- One-or-more comma-separated array entries, then `]`. -/
def parseJsonArrItems : Nat → List Char → Option (List Json × List Char)
  | 0, _ => none
  | fuel + 1, cs =>
    match parseJsonVal fuel cs with
    | none => none
    | some (v, rest) =>
      match skipWsChars rest with
      | ',' :: rest' =>
        match parseJsonArrItems fuel rest' with
        | some (items, rest'') => some (v :: items, rest'')
        | none => none
      | ']' :: rest' => some ([v], rest')
      | _ => none

/-- One-or-more comma-separated object members, then the closing brace,
returned in source order (duplicates included; see `assignFold`). -/
def parseJsonObjItems : Nat → List Char → Option (List (String × Json) × List Char)
  | 0, _ => none
  | fuel + 1, cs =>
    match skipWsChars cs with
    | c :: rest =>
      if c = qChar then
        match parseStringChars rest with
        | none => none
        | some (key, rest') =>
          match skipWsChars rest' with
          | ':' :: rest'' =>
            match parseJsonVal fuel rest'' with
            | none => none
            | some (v, rest3) =>
              match skipWsChars rest3 with
              | ',' :: rest4 =>
                match parseJsonObjItems fuel rest4 with
                | some (fields, rest5) => some (((⟨key⟩ : String), v) :: fields, rest5)
                | none => none
              | r :: rest4 =>
                if r = rbChar then some ([((⟨key⟩ : String), v)], rest4) else none
              | [] => none
          | _ => none
      else none
    | [] => none
end

/-- `JSON.parse`: parse one value, allowing surrounding whitespace and
requiring the whole input to be consumed. -/
def jsonParse (s : String) : Option Json :=
  let cs := s.data
  match parseJsonVal (2 * cs.length + 2) cs with
  | some (j, rest) => if skipWsChars rest = [] then some j else none
  | none => none

/-- `hay.replace(pat, repl)` with a plain-string pattern: JavaScript replaces
only the first occurrence. -/
def replaceFirstChars (hay : List Char) (pat repl : List Char) : List Char :=
  match hay with
  | [] => []
  | c :: cs =>
    if pat.isPrefixOf (c :: cs) then repl ++ (c :: cs).drop pat.length
    else c :: replaceFirstChars cs pat repl

/-- `s.replace(pat, repl)` for a plain-string (non-regex) pattern. -/
def jsReplaceFirst (s pat repl : String) : String :=
  ⟨replaceFirstChars s.data pat.data repl.data⟩

/-- Whitespace removed by `String.prototype.trim` (ASCII fragment). -/
def isTrimWs (c : Char) : Bool := isRegexWs c

/-- `s.trim()`. -/
def jsTrim (s : String) : String :=
  ⟨((s.data.dropWhile isTrimWs).reverse.dropWhile isTrimWs).reverse⟩

/-- Global replace of the regex `pat\n?` by the empty string, where `pat` is a
literal: scan left to right, and after each match resume after the matched
span (the JavaScript `g`-flag semantics). Fuel is the input length; every step
consumes at least one character. -/
def stripPatNL (cs : List Char) (pat : List Char) (fuel : Nat) : List Char :=
  match fuel, cs with
  | _, [] => []
  | 0, cs => cs
  | fuel + 1, c :: cs' =>
    if pat.isPrefixOf (c :: cs') then
      let rest := (c :: cs').drop pat.length
      let rest' := match rest with
        | '\n' :: r => r
        | r => r
      stripPatNL rest' pat fuel
    else c :: stripPatNL cs' pat fuel

/-- `raw.replace(/```json\n?/g, '').replace(/```\n?/g, '')` — the code-fence
stripping applied by the custom OpenAI-compatible service to model output. -/
def stripCodeFences (s : String) : String :=
  let a : List Char := stripPatNL s.data "```json".data s.data.length
  ⟨stripPatNL a "```".data a.length⟩

/-- `response.match(/\{[\s\S]*\}/)`: the span from the first left brace to the
last right brace, provided the latter comes after the former (the greedy
regex semantics). -/
def extractBraceSpan (s : String) : Option String :=
  let cs := s.data
  match cs.findIdx? (fun c => c = lbChar) with
  | none => none
  | some i =>
    match cs.reverse.findIdx? (fun c => c = rbChar) with
    | none => none
    | some rj =>
      let j := cs.length - 1 - rj
      if i < j then some ⟨(cs.drop i).take (j - i + 1)⟩ else none

/-- Global replace of `,\s*C` by `C` for a closer character `C` (the
trailing-comma passes of `_sanitizeJsonString`). -/
def removeTrailingCommaPat (closer : Char) (cs : List Char) (fuel : Nat) : List Char :=
  match fuel, cs with
  | _, [] => []
  | 0, cs => cs
  | fuel + 1, c :: cs' =>
    if c = ',' then
      match cs'.dropWhile isRegexWs with
      | r :: rest' =>
        if r = closer then closer :: removeTrailingCommaPat closer rest' fuel
        else c :: removeTrailingCommaPat closer cs' fuel
      | [] => c :: removeTrailingCommaPat closer cs' fuel
    else c :: removeTrailingCommaPat closer cs' fuel

/-- Word characters of the regex class `[a-zA-Z0-9_]`. -/
def isWordChar (c : Char) : Bool :=
  c.isAlpha || c.isDigit || c = '_'

/-- Quote character of the regex class used by `_sanitizeJsonString`. -/
def isQuoteChar (c : Char) : Bool :=
  c = qChar || c = sqChar

/-- Global replace of `(['"])?([a-zA-Z0-9_]+)(['"])?\s*:` by `"$2":` (the
property-name-quoting pass of `_sanitizeJsonString`). Because a word
character can follow neither an optional-quote nor `\s*:` failure point,
the regex engine's backtracking never produces a different match than this
direct scan. -/
def quotePropNames (cs : List Char) (fuel : Nat) : List Char :=
  match fuel, cs with
  | _, [] => []
  | 0, cs => cs
  | fuel + 1, c :: cs' =>
    let afterQ1 := if isQuoteChar c then cs' else c :: cs'
    let name := afterQ1.takeWhile isWordChar
    if name.isEmpty then c :: quotePropNames cs' fuel
    else
      let afterName := afterQ1.dropWhile isWordChar
      let afterQ2 :=
        match afterName with
        | d :: ds => if isQuoteChar d then ds else afterName
        | [] => afterName
      match afterQ2.dropWhile isRegexWs with
      | ':' :: rest => (qChar :: name ++ [qChar, ':']) ++ quotePropNames rest fuel
      | _ => c :: quotePropNames cs' fuel

/-- `_sanitizeJsonString` of `services/ollamaService.js`: remove trailing
commas before closing braces and brackets, then force property names into
quoted form. -/
def sanitizeJsonString (jsonStr : String) : String :=
  let a := removeTrailingCommaPat rbChar jsonStr.data jsonStr.data.length
  let b := removeTrailingCommaPat ']' a a.length
  ⟨quotePropNames b b.length⟩

/-- Lower-case hexadecimal digit. -/
def hexDigitChar (n : Nat) : Char :=
  Char.ofNat (if n < 10 then 48 + n else 87 + n)

/-- Escape one character as inside a `JSON.stringify` string literal. -/
def jsonQuoteChar (c : Char) : List Char :=
  if c = qChar then [bsChar, qChar]
  else if c = bsChar then [bsChar, bsChar]
  else if c = '\n' then [bsChar, 'n']
  else if c = '\r' then [bsChar, 'r']
  else if c = '\t' then [bsChar, 't']
  else if c = Char.ofNat 8 then [bsChar, 'b']
  else if c = Char.ofNat 12 then [bsChar, 'f']
  else if c.toNat < 32 then
    [bsChar, 'u', '0', '0', hexDigitChar (c.toNat / 16), hexDigitChar (c.toNat % 16)]
  else [c]

/-- `JSON.stringify` of a string value (used for the Ollama user prompt,
`JSON.stringify(content)`). -/
def jsonQuote (s : String) : String :=
  ⟨qChar :: (s.data.map jsonQuoteChar).flatten ++ [qChar]⟩

mutual
/-- Structural size of a value (used as stringification fuel). -/
def jsonSize : Json → Nat
  | .arr xs => 1 + jsonSizeList xs
  | .obj fs => 1 + jsonSizeFields fs
  | _ => 1

/-- Structural size of an element list. -/
def jsonSizeList : List Json → Nat
  | [] => 0
  | x :: xs => jsonSize x + jsonSizeList xs

/-- Structural size of a field list. -/
def jsonSizeFields : List (String × Json) → Nat
  | [] => 0
  | (_, v) :: fs => jsonSize v + jsonSizeFields fs
end

/-- Prefix of at most `n` characters (structural; `s.substring(0, n)`). -/
def takeChars (s : String) (n : Nat) : String :=
  ⟨s.data.take n⟩

/-- Split on newline characters (structural; `s.split('\n')`). -/
def splitLinesAux : List Char → List Char → List (List Char)
  | [], acc => [acc.reverse]
  | c :: cs, acc =>
    if c = '\n' then acc.reverse :: splitLinesAux cs []
    else splitLinesAux cs (c :: acc)

/-- `s.split('\n')`. -/
def splitLines (s : String) : List String :=
  (splitLinesAux s.data []).map (fun l => ⟨l⟩)

/-- `parts.join(sep)` (structural). -/
def joinSep (sep : String) : List String → String
  | [] => ""
  | [x] => x
  | x :: xs => x ++ sep ++ joinSep sep xs

/-- A run of spaces. -/
def spacesStr (n : Nat) : String := ⟨List.replicate n ' '⟩

/-- `JSON.stringify(v, null, 2)` at a given indentation level, with fuel
bounding the structural depth. -/
def jsonStringifyPretty : Nat → Nat → Json → String
  | _, _, .null => "null"
  | _, _, .bool b => if b then "true" else "false"
  | _, _, .num n => toString n
  | _, _, .str s => jsonQuote s
  | 0, _, .arr _ => ""
  | 0, _, .obj _ => ""
  | fuel + 1, ind, .arr elems =>
    match elems with
    | [] => "[]"
    | _ =>
      "[\n" ++
        joinSep ",\n"
          (elems.map (fun v => spacesStr (ind + 2) ++ jsonStringifyPretty fuel (ind + 2) v)) ++
        "\n" ++ spacesStr ind ++ "]"
  | fuel + 1, ind, .obj fields =>
    match fields with
    | [] => "\x7b\x7d"
    | _ =>
      "\x7b\n" ++
        joinSep ",\n"
          (fields.map (fun p =>
            spacesStr (ind + 2) ++ jsonQuote p.1 ++ ": " ++
              jsonStringifyPretty fuel (ind + 2) p.2)) ++
        "\n" ++ spacesStr ind ++ "\x7d"

/-- `JSON.stringify(v, null, 2)` (fuel instantiated with the term size, an
upper bound on the structural depth). -/
def jsonStringify2 (j : Json) : String :=
  jsonStringifyPretty (jsonSize j) 0 j

/-- `String(v)` for the primitive values reachable at the external-data
validation sites (objects, `null` included, go through `JSON.stringify`
there instead). -/
def jsToString : Json → String
  | .null => "null"
  | .bool b => if b then "true" else "false"
  | .num n => toString n
  | .str s => s
  | .arr _ => ""
  | .obj _ => ""

/-- Configuration object `config` of `config/config.js` (the fields the two
services read). In the source the numeric limits are strings passed through
`Number(...)`; they are modelled as the numbers they denote. -/
structure Config where
  tokenLimit : Nat
  responseTokens : Nat
  mustHavePrompt : String
  restrictToExistingTags : String
  restrictToExistingCorrespondents : String
  restrictToExistingDocumentTypes : String
  useExistingData : String
  specialPromptPreDefinedTags : String
  aiProvider : String
deriving Repr, DecidableEq

/-- The `process.env` variables read by the two services (`none` =
variable unset). `CONTENT_MAX_LENGTH` is compared numerically in the source,
so it is modelled as the number it denotes. -/
structure EnvVars where
  SYSTEM_PROMPT : Option String
  CUSTOM_FIELDS : Option String
  USE_PROMPT_TAGS : Option String
  PROMPT_TAGS : Option String
  CONTENT_MAX_LENGTH : Option Nat
deriving Repr, DecidableEq

/-- The `options` argument of `analyzeDocument` (`none` = property absent). -/
structure AnalysisOptions where
  restrictToExistingTags : Option Bool
  restrictToExistingCorrespondents : Option Bool
  restrictToExistingDocumentTypes : Option Bool
  externalApiData : Option Json
deriving Repr

/-- Token usage metrics of an analysis result. -/
structure UsageMetrics where
  promptTokens : Nat
  completionTokens : Nat
  totalTokens : Nat
deriving Repr, DecidableEq

/-- Side effects of an analysis call that outlive it, recorded in order:
an HTTP request issued to the LLM backend, an append to the prompt log
(`writePromptToFile`), an append to `./logs/response.txt`. -/
inductive AnalysisEvent where
  | backendRequest (numCtx : Option Nat) : AnalysisEvent
  | promptLogAppend : AnalysisEvent
  | responseLogAppend : AnalysisEvent
deriving Repr, DecidableEq

/-- The value returned by `analyzeDocument`: on the catch path `truncated` is
absent and `error` present; on the return path `error` is absent. -/
structure AnalysisOutcome where
  document : Json
  metrics : Option UsageMetrics
  truncated : Option Bool
  error : Option String
deriving Repr

/-- One analysis call: its returned value, the `config` object as the call
leaves it (the services assign into the shared `config`), and the recorded
side effects. -/
structure ServiceRun where
  outcome : AnalysisOutcome
  finalConfig : Config
  events : List AnalysisEvent
deriving Repr

/-- Behaviour of the Ollama generate endpoint for one call: the HTTP request
throws, or resolves without a `data` body, or resolves with `data` whose
`response` member is the given value (`none` = absent). -/
inductive OllamaBackend where
  | unreachable (msg : String) : OllamaBackend
  | noData : OllamaBackend
  | ok (respField : Option Json) : OllamaBackend
deriving Repr

/-- Behaviour of a chat-completion backend for one call: the request throws,
or resolves with a message content (`none` = `choices[0].message.content`
missing) and usage metrics. -/
structure ChatResponse where
  content : Option String
  usage : UsageMetrics
deriving Repr

/-- A chat-completion backend call either throws or resolves. -/
inductive ChatBackend where
  | unreachable (msg : String) : ChatBackend
  | ok (response : ChatResponse) : ChatBackend
deriving Repr

/-- Modelled from the spec: `calculateTokens` of `services/serviceUtils.js`
is not under `src/`. Spec §4.1: a deterministic heuristic, "character-count
divided by a small constant, e.g. 4", monotonic in text length, 0 for empty
text (`Math.ceil(length / 4)`, as the in-repo Ollama estimator also does). -/
def calculateTokens (text : String) : Nat :=
  (text.length + 3) / 4

/-- Modelled from the spec: `calculateTotalPromptTokens` of
`services/serviceUtils.js` is not under `src/`. Spec §4.3 step 7: "Compute
total prompt tokens" over the assembled system prompt plus any additional
prompt fragments, with the §4.1 estimator. -/
def calculateTotalPromptTokens (systemPrompt : String)
    (additionalPrompts : List String) : Nat :=
  calculateTokens (additionalPrompts.foldl (fun acc p => acc ++ p) systemPrompt)

/-- Modelled from the spec: `truncateToTokenLimit` of
`services/serviceUtils.js` is not under `src/`. Spec §4.2: keep a prefix
whose §4.1 estimate is at most the budget; a non-positive budget yields the
empty string. A prefix of `4 * maxTokens` characters estimates to at most
`maxTokens`. -/
def truncateToTokenLimit (text : String) (maxTokens : Int) : String :=
  if maxTokens ≤ 0 then "" else takeChars text (maxTokens.toNat * 4)

/-- Modelled from the spec:
`RestrictionPromptService.processRestrictionsInPrompt` of
`services/restrictionPromptService.js` is not under `src/`. Spec §4.3 only
constrains it: a backward-compatibility placeholder-substitution pass that
"must operate on the already-assembled prompt and must not remove
already-inserted restriction text"; no placeholder grammar is specified and
no claim depends on its output, so it is modelled as the substitution that
leaves the assembled prompt unchanged. -/
def processRestrictionsInPrompt (systemPrompt : String)
    (_existingTags _existingCorrespondents _existingDocumentTypes : List String)
    (_cfg : Config) : String :=
  systemPrompt

/-- The fallback `{ custom_fields: [] }` used when `CUSTOM_FIELDS` fails to
parse (`JSON.parse` of an unset variable throws, which is caught). -/
def defaultCustomFieldsObj : Json :=
  .obj [("custom_fields", .arr [])]

/-- `JSON.parse(process.env.CUSTOM_FIELDS)` with its surrounding catch. -/
def parseCustomFieldsEnv (env : EnvVars) : Json :=
  match env.CUSTOM_FIELDS with
  | some s =>
    match jsonParse s with
    | some j => j
    | none => defaultCustomFieldsObj
  | none => defaultCustomFieldsObj

/-- The `customFieldsTemplate` object: index keys in order, each entry
carrying `field_name: field.value` (omitted when `field.value` is absent,
as `JSON.stringify` drops `undefined` members) and the fill-in instruction. -/
def customFieldsTemplate (fieldsArr : List Json) : Json :=
  .obj (fieldsArr.enum.map (fun p =>
    (toString p.1,
      match jsonGet p.2 "value" with
      | some v =>
        Json.obj [("field_name", v),
          ("value", Json.str "Fill in the value based on your analysis")]
      | none =>
        Json.obj [("value", Json.str "Fill in the value based on your analysis")])))

/-- `.split('\n').map(line => '    ' + line).join('\n')`. -/
def indentCustomFieldsStr (s : String) : String :=
  joinSep "\n" ((splitLines s).map (fun line => "    " ++ line))

/-- The `customFieldsStr` computation shared by both services: parse
`CUSTOM_FIELDS`, render the template, prefix and indent. When the parsed
value has no `custom_fields` array, `customFieldsObj.custom_fields.forEach`
throws a `TypeError` that the services' outer catch converts into a degraded
result (the exact engine message is irrelevant downstream and approximated
here). -/
def customFieldsStrE (env : EnvVars) : Except String String :=
  match jsonGet (parseCustomFieldsEnv env) "custom_fields" with
  | some (.arr fields) =>
    .ok ("\"custom_fields\": " ++
      indentCustomFieldsStr (jsonStringify2 (customFieldsTemplate fields)))
  | _ => .error "customFieldsObj.custom_fields.forEach is not a function"

/-- `x || null` on a property read: the value when truthy, else `null`. -/
def jsOrNull (o : Option Json) : Json :=
  match o with
  | some j => if jsTruthy j then j else .null
  | none => .null

/-- `Array.isArray(p.tags) ? p.tags : []`. -/
def getTagsField (p : Json) : Json :=
  match jsonGet p "tags" with
  | some (.arr xs) => .arr xs
  | _ => .arr []

/-- The normalized seven-field result object built on the successful parse
paths of `_processOllamaResponse` and `_parseResponse`. -/
def normalizeParsed (parsed : Json) : Json :=
  .obj [("tags", getTagsField parsed),
    ("correspondent", jsOrNull (jsonGet parsed "correspondent")),
    ("title", jsOrNull (jsonGet parsed "title")),
    ("document_date", jsOrNull (jsonGet parsed "document_date")),
    ("document_type", jsOrNull (jsonGet parsed "document_type")),
    ("language", jsOrNull (jsonGet parsed "language")),
    ("custom_fields", jsOrNull (jsonGet parsed "custom_fields"))]

/-- The result object built when `_parseResponse` succeeds only after
`_sanitizeJsonString`: five fields, with no `document_type` and no
`custom_fields` members. -/
def sanitizedNormalize (sanitizedResult : Json) : Json :=
  .obj [("tags", getTagsField sanitizedResult),
    ("correspondent", jsOrNull (jsonGet sanitizedResult "correspondent")),
    ("title", jsOrNull (jsonGet sanitizedResult "title")),
    ("document_date", jsOrNull (jsonGet sanitizedResult "document_date")),
    ("language", jsOrNull (jsonGet sanitizedResult "language"))]

/-- The degraded result `{ tags: [], correspondent: null }`. -/
def degradedDoc : Json :=
  .obj [("tags", .arr []), ("correspondent", .null)]

/-- The value returned from the catch block of each `analyzeDocument`. -/
def catchOutcome (msg : String) : AnalysisOutcome :=
  { document := degradedDoc, metrics := none, truncated := none, error := some msg }

/-- `_parseResponse` of `services/ollamaService.js`: regex-extract the first
`{`..last`}` span, parse it, on failure sanitize and parse once more, and
degrade to `{tags: [], correspondent: null}` when everything fails. This
function never throws. -/
def ollamaParseResponseFallback (response : String) : Json :=
  match extractBraceSpan response with
  | none => degradedDoc
  | some jsonStr =>
    match jsonParse jsonStr with
    | some result => normalizeParsed result
    | none =>
      match jsonParse (sanitizeJsonString jsonStr) with
      | some sanitizedResult => sanitizedNormalize sanitizedResult
      | none => degradedDoc

/-- `_processOllamaResponse` of `services/ollamaService.js`. A falsy
`response` member throws; a string member is `JSON.parse`d (a parse failure,
or parsing to `null` whose property reads throw inside the same try, falls
back to `_parseResponse`); an object member is normalized directly; any other
type throws. -/
def processOllamaResponse (respField : Option Json) : Except String Json :=
  if ¬ jsTruthyOpt respField then .error "No response data from Ollama API"
  else
    match respField with
    | some (.str s) =>
      (match jsonParse s with
       | some .null => .ok (ollamaParseResponseFallback s)
       | some parsed => .ok (normalizeParsed parsed)
       | none => .ok (ollamaParseResponseFallback s))
    | some (.arr elems) => .ok (normalizeParsed (.arr elems))
    | some (.obj fields) => .ok (normalizeParsed (.obj fields))
    | _ => .error "Unexpected response format from Ollama"

/-- Truthiness of an `options` restriction flag at the enforcement sites
(`options.restrictToExistingTags && ...`): no `config` fallback there. -/
def optTruthy (o : Option Bool) : Bool :=
  o == some true

/-- `existingTags.includes(tag)`: strict equality holds only for a string
equal to an allow-list entry. -/
def tagAllowed (existingTags : List String) : Json → Bool
  | .str s => existingTags.contains s
  | _ => false

/-- The tag-enforcement step of `analyzeDocument` (lines 150-160): when the
flag is truthy and the allow-list is non-empty, keep exactly the tags included
in the allow-list, in order. Every document reaching this step has an array
`tags` member (`processOllamaResponse_tags_array` below), so the non-array
branch is unreachable in the pipeline. -/
def enforceTagsStep (opts : AnalysisOptions) (existingTags : List String)
    (doc : Json) : Json :=
  if optTruthy opts.restrictToExistingTags && !existingTags.isEmpty then
    match jsonGet doc "tags" with
    | some (.arr xs) => jsonSet doc "tags" (.arr (xs.filter (tagAllowed existingTags)))
    | _ => doc
  else doc

/-- `existingDocumentTypesList.includes(document_type)`. -/
def docTypeInList (existingDocumentTypes : List String) : Json → Bool
  | .str s => existingDocumentTypes.contains s
  | _ => false

/-- The document-type-enforcement step of `analyzeDocument` (lines 162-168):
when the flag is truthy, the allow-list non-empty, and the document type
truthy but not in the allow-list, null it out. -/
def enforceDocTypeStep (opts : AnalysisOptions) (existingDocumentTypes : List String)
    (doc : Json) : Json :=
  if optTruthy opts.restrictToExistingDocumentTypes && !existingDocumentTypes.isEmpty then
    match jsonGet doc "document_type" with
    | some dt =>
      if jsTruthy dt && !docTypeInList existingDocumentTypes dt then
        jsonSet doc "document_type" .null
      else doc
    | none => doc
  else doc

/-- The complete restriction-enforcement pass of the Ollama
`analyzeDocument`, in source order: tags first, then document type. -/
def enforceRestrictions (opts : AnalysisOptions)
    (existingTags existingDocumentTypes : List String) (doc : Json) : Json :=
  enforceDocTypeStep opts existingDocumentTypes
    (enforceTagsStep opts existingTags doc)

/-- `_truncateContent` of `services/ollamaService.js`:
`CONTENT_MAX_LENGTH` or the 4000-character default, prefix truncation. -/
def ollamaTruncateContent (env : EnvVars) (content : String) : String :=
  let maxLength := env.CONTENT_MAX_LENGTH.getD 4000
  if content.length > maxLength then takeChars content maxLength else content

/-- `_calculatePromptTokenCount` of `services/ollamaService.js`:
`Math.ceil(prompt.length / 4)`. -/
def calculatePromptTokenCount (prompt : String) : Nat :=
  (prompt.length + 3) / 4

/-- `_calculateNumCtx` of `services/ollamaService.js`:
`Math.min(promptTokenCount + expectedResponseTokens, Number(config.tokenLimit))`. -/
def calculateNumCtx (cfg : Config) (promptTokenCount expectedResponseTokens : Nat) : Nat :=
  min (promptTokenCount + expectedResponseTokens) cfg.tokenLimit

/-- `typeof v === 'object'` (`null`, arrays and objects). -/
def isTypeofObject : Json → Bool
  | .null => true
  | .arr _ => true
  | .obj _ => true
  | _ => false

/-- `_validateAndTruncateExternalApiData` of `services/ollamaService.js` with
its default 500-token ceiling: stringify, estimate `ceil(length/4)`, truncate
to `500 * 4` characters when over the ceiling. Returns `none` for falsy
input. -/
def ollamaValidateExternalApiData (apiData : Json) : Option String :=
  if ¬ jsTruthy apiData then none
  else
    let dataString := if isTypeofObject apiData then jsonStringify2 apiData else jsToString apiData
    let dataTokens := (dataString.length + 3) / 4
    if dataTokens > 500 then some (takeChars dataString (500 * 4)) else some dataString

/-- The restriction flags of the prompt builders:
`options.flag !== undefined ? options.flag : config.flag === 'yes'`. -/
def effectiveFlag (o : Option Bool) (cfgFlag : String) : Bool :=
  match o with
  | some b => b
  | none => cfgFlag == "yes"

/-- The explicit JSON-schema-enforcement block of
`_buildSystemPromptWithRestrictions` (lines 319-330). -/
def schemaEnforcementBlock : String :=
  "CRITICAL: You MUST return a JSON object with this EXACT structure, regardless of document quality:\n" ++
  "\x7b\n" ++
  "  \"title\": \"string\",\n" ++
  "  \"correspondent\": \"string or null\",\n" ++
  "  \"tags\": [\"array\", \"of\", \"strings\"],\n" ++
  "  \"document_type\": \"string\",\n" ++
  "  \"document_date\": \"YYYY-MM-DD or null\",\n" ++
  "  \"language\": \"en/de/es/etc\",\n" ++
  "  \"custom_fields\": \x7b\x7d\n" ++
  "\x7d\n" ++
  "If the document has corrupted text or unclear content, make your best guess but ALWAYS use this JSON structure.\n" ++
  "Do NOT create alternative JSON formats (like \"product\", \"instructions\", \"model_number\", etc.).\n\n"

/-- The TAGS restriction block of the Ollama prompt builder (lines 349-360),
with its category-over-literal negative examples. -/
def ollamaTagRestrictionBlock (tagNames : String) : String :=
  "\nTAGS: You MUST select tags ONLY from the following existing tags. Do NOT create new tags.\n" ++
  "IMPORTANT: Do NOT use literal product names, object names, or document types as tags.\n" ++
  "For example:\n" ++
  "  - If the document is about a dishwasher, use \"Appliance\" and \"Kitchen Equipment\", NOT \"Dishwasher\"\n" ++
  "  - If the document is a manual, use category tags like \"Appliance\", NOT \"Manual\" or \"User Manual\"\n" ++
  "  - If the document is about a refrigerator, use \"Appliance\" and \"Kitchen Equipment\", NOT \"Refrigerator\"\n" ++
  "Think about what CATEGORY the document belongs to, not what object is mentioned.\n" ++
  "Choose 2-4 tags that best categorize the document.\n" ++
  "Available tags: " ++ tagNames ++ "\n"

/-- The CORRESPONDENT restriction block (shared wording of both services). -/
def correspondentRestrictionBlock (correspondentNames : String) : String :=
  "\nCORRESPONDENT: You MUST select a correspondent ONLY from the following existing correspondents. Do NOT create a new correspondent. Choose the ONE that best matches the document:\n" ++
  "Available correspondents: " ++ correspondentNames ++ "\n"

/-- The DOCUMENT TYPE restriction block (shared wording of both services). -/
def docTypeRestrictionBlock (docTypeNames : String) : String :=
  "\nDOCUMENT TYPE: You MUST select a document type ONLY from the following existing types. Do NOT create a new type. Choose the ONE that best matches the document:\n" ++
  "Available document types: " ++ docTypeNames ++ "\n"

/-- The non-binding reference listing appended when no restriction flag is
set but `useExistingData` is `'yes'` (Ollama variant, lines 375-393): tags
joined as-is, correspondents and document types filtered of empty names. -/
def ollamaReferenceBlock (existingTags existingCorrespondent existingDocumentTypes :
    List String) : String :=
  "\nPre-existing tags: " ++ joinSep ", " existingTags ++ "\n" ++
  "Pre-existing correspondents: " ++
    joinSep ", " (existingCorrespondent.filter (fun s => s ≠ "")) ++ "\n" ++
  "Pre-existing document types: " ++
    joinSep ", " (existingDocumentTypes.filter (fun s => s ≠ "")) ++ "\n\n"

/-- `_buildSystemPromptWithRestrictions` of `services/ollamaService.js`. The
returned configuration records the in-place assignment
`config.mustHavePrompt = config.mustHavePrompt.replace('%CUSTOMFIELDS%', customFieldsStr)`
(line 397). The external-data branch appends the interpolation of the
unawaited promise returned by `_validateAndTruncateExternalApiData` (the
source omits `await` at line 404), which is the string "[object Promise]". -/
def ollamaBuildSystemPrompt (cfg : Config) (env : EnvVars)
    (existingTags existingCorrespondent existingDocumentTypes : List String)
    (opts : AnalysisOptions) : Except String (String × Config) :=
  match customFieldsStrE env with
  | .error m => .error m
  | .ok customFieldsStr =>
    let hasTagRestrictions := effectiveFlag opts.restrictToExistingTags cfg.restrictToExistingTags
    let hasCorrespondentRestrictions :=
      effectiveFlag opts.restrictToExistingCorrespondents cfg.restrictToExistingCorrespondents
    let hasDocTypeRestrictions :=
      effectiveFlag opts.restrictToExistingDocumentTypes cfg.restrictToExistingDocumentTypes
    let base := (env.SYSTEM_PROMPT.getD "undefined") ++ "\n\n" ++ schemaEnforcementBlock
    let withLists :=
      if hasTagRestrictions || hasCorrespondentRestrictions || hasDocTypeRestrictions then
        base ++ "\n--- IMPORTANT RESTRICTIONS ---\n" ++
          (if hasTagRestrictions && !existingTags.isEmpty then
            ollamaTagRestrictionBlock (joinSep ", " existingTags)
          else "") ++
          (if hasCorrespondentRestrictions && !existingCorrespondent.isEmpty then
            correspondentRestrictionBlock (joinSep ", " existingCorrespondent)
          else "") ++
          (if hasDocTypeRestrictions && !existingDocumentTypes.isEmpty then
            docTypeRestrictionBlock (joinSep ", " existingDocumentTypes)
          else "") ++
          "--- END RESTRICTIONS ---\n\n"
      else if cfg.useExistingData == "yes" then
        base ++ ollamaReferenceBlock existingTags existingCorrespondent existingDocumentTypes
      else base
    let cfg' := { cfg with
      mustHavePrompt := jsReplaceFirst cfg.mustHavePrompt "%CUSTOMFIELDS%" customFieldsStr }
    let p1 := withLists ++ cfg'.mustHavePrompt
    let p2 := processRestrictionsInPrompt p1 existingTags existingCorrespondent
      existingDocumentTypes cfg'
    let p3 :=
      if jsTruthyOpt opts.externalApiData then
        p2 ++ "\n\nAdditional context from external API:\n[object Promise]"
      else p2
    let hasAnyRestrictions :=
      hasTagRestrictions || hasCorrespondentRestrictions || hasDocTypeRestrictions
    let p4 :=
      if env.USE_PROMPT_TAGS == some "yes" && !hasAnyRestrictions then
        p3 ++ "\n\nTake these tags and try to match one or more to the document content.\n\n" ++
          cfg.specialPromptPreDefinedTags
      else p3
    .ok (p4, cfg')

/-- The custom-prompt branch of the Ollama `analyzeDocument` (lines 102-129):
`customPrompt + '\n\n' + config.mustHavePrompt.replace('%CUSTOMFIELDS%', customFieldsStr)`.
This branch reads but does not assign `config.mustHavePrompt`. -/
def ollamaCustomPromptBuild (cfg : Config) (env : EnvVars)
    (customPrompt : String) : Except String String :=
  match customFieldsStrE env with
  | .error m => .error m
  | .ok customFieldsStr =>
    .ok (customPrompt ++ "\n\n" ++
      jsReplaceFirst cfg.mustHavePrompt "%CUSTOMFIELDS%" customFieldsStr)

/-- `analyzeDocument` of `services/ollamaService.js`, as one pure function of
its inputs and the backend's behaviour. Thumbnail caching (a filesystem
read-through cache keyed by the document id) and `console` output are not
modelled; the prompt-log append is recorded as an event. The catch block
(lines 188-195) turns any thrown message into the degraded outcome. -/
def ollamaAnalyzeDocument (cfg : Config) (env : EnvVars) (content : String)
    (existingTags existingCorrespondentList existingDocumentTypesList : List String)
    (_id : String) (customPrompt : Option String) (opts : AnalysisOptions)
    (backend : OllamaBackend) : ServiceRun :=
  let content1 := ollamaTruncateContent env content
  let buildE : Except String (String × Config) :=
    match customPrompt with
    | none => ollamaBuildSystemPrompt cfg env existingTags existingCorrespondentList
        existingDocumentTypesList opts
    | some cp =>
      match ollamaCustomPromptBuild cfg env cp with
      | .error m => .error m
      | .ok p => .ok (p, cfg)
  match buildE with
  | .error m => { outcome := catchOutcome m, finalConfig := cfg, events := [] }
  | .ok (systemPrompt, cfg') =>
    let userPrompt := jsonQuote content1
    let totalPrompt := systemPrompt ++ userPrompt
    let promptTokenCount := calculatePromptTokenCount totalPrompt
    let numCtx := calculateNumCtx cfg' promptTokenCount 1024
    match backend with
    | .unreachable m =>
      { outcome := catchOutcome m, finalConfig := cfg',
        events := [.backendRequest (some numCtx)] }
    | .noData =>
      { outcome := catchOutcome "Invalid response from Ollama API", finalConfig := cfg',
        events := [.backendRequest (some numCtx)] }
    | .ok respField =>
      match processOllamaResponse respField with
      | .error m =>
        { outcome := catchOutcome m, finalConfig := cfg',
          events := [.backendRequest (some numCtx)] }
      | .ok parsedResponse =>
        let doc := enforceRestrictions opts existingTags existingDocumentTypesList
          parsedResponse
        { outcome :=
            { document := doc,
              metrics := some { promptTokens := 0, completionTokens := 0, totalTokens := 0 },
              truncated := some false,
              error := none },
          finalConfig := cfg',
          events := [.backendRequest (some numCtx), .promptLogAppend] }

/-- `_validateAndTruncateExternalApiData` of the custom service with its
default 500-token ceiling, using the shared utilities: stringify, estimate,
truncate to the ceiling when over. Returns `none` for falsy input. -/
def customValidateExternalApiData (apiData : Json) : Option String :=
  if ¬ jsTruthy apiData then none
  else
    let dataString := if isTypeofObject apiData then jsonStringify2 apiData else jsToString apiData
    let dataTokens := calculateTokens dataString
    if dataTokens > 500 then some (truncateToTokenLimit dataString 500) else some dataString

/-- The TAGS restriction block of the custom service (lines 124-129; its
wording differs from the Ollama variant). -/
def customTagRestrictionBlock (tagNames : String) : String :=
  "\nTAGS: You MUST select tags ONLY from the following existing tags. Do NOT create new tags. Choose the tags that best match the document content:\n" ++
  "Available tags: " ++ tagNames ++ "\n"

/-- The reference listing of the custom service (lines 146-151). The
correspondent line interpolates the array itself, so its entries are joined
with bare commas. -/
def customReferenceBlock (existingTags existingCorrespondentList
    existingDocumentTypesList : List String) : String :=
  "\nPre-existing tags: " ++ joinSep ", " existingTags ++ "\n" ++
  "Pre-existing correspondents: " ++ joinSep "," existingCorrespondentList ++ "\n" ++
  "Pre-existing document types: " ++ joinSep ", " existingDocumentTypesList ++ "\n\n"

/-- The prompt assembly of the custom service `analyzeDocument` (lines
75-187): base prompt, restriction or reference blocks, the in-place
`config.mustHavePrompt` placeholder substitution (line 154), the
backward-compatibility pass, validated external data, `USE_PROMPT_TAGS`
appendix, and the custom-prompt override (which still appends the mutated
`config.mustHavePrompt`). Returns the system prompt, `promptTags`, and the
configuration as mutated. -/
def customPromptAssembly (cfg : Config) (env : EnvVars)
    (existingTags existingCorrespondentList existingDocumentTypesList : List String)
    (customPrompt : Option String) (opts : AnalysisOptions) :
    Except String (String × String × Config) :=
  match customFieldsStrE env with
  | .error m => .error m
  | .ok customFieldsStr =>
    let hasTagRestrictions := effectiveFlag opts.restrictToExistingTags cfg.restrictToExistingTags
    let hasCorrespondentRestrictions :=
      effectiveFlag opts.restrictToExistingCorrespondents cfg.restrictToExistingCorrespondents
    let hasDocTypeRestrictions :=
      effectiveFlag opts.restrictToExistingDocumentTypes cfg.restrictToExistingDocumentTypes
    let base := (env.SYSTEM_PROMPT.getD "undefined") ++ "\n\n"
    let withLists :=
      if hasTagRestrictions || hasCorrespondentRestrictions || hasDocTypeRestrictions then
        base ++ "\n--- IMPORTANT RESTRICTIONS ---\n" ++
          (if hasTagRestrictions && !existingTags.isEmpty then
            customTagRestrictionBlock (joinSep ", " existingTags)
          else "") ++
          (if hasCorrespondentRestrictions && !existingCorrespondentList.isEmpty then
            correspondentRestrictionBlock (joinSep ", " existingCorrespondentList)
          else "") ++
          (if hasDocTypeRestrictions && !existingDocumentTypesList.isEmpty then
            docTypeRestrictionBlock (joinSep ", " existingDocumentTypesList)
          else "") ++
          "--- END RESTRICTIONS ---\n\n"
      else if cfg.useExistingData == "yes" then
        base ++ customReferenceBlock existingTags existingCorrespondentList
          existingDocumentTypesList
      else base
    let cfg' := { cfg with
      mustHavePrompt := jsReplaceFirst cfg.mustHavePrompt "%CUSTOMFIELDS%" customFieldsStr }
    let p1 := withLists ++ cfg'.mustHavePrompt
    let p2 := processRestrictionsInPrompt p1 existingTags existingCorrespondentList
      existingDocumentTypesList cfg'
    let validatedExternalApiData : Option String :=
      match opts.externalApiData with
      | some d => customValidateExternalApiData d
      | none => none
    let p3 :=
      match validatedExternalApiData with
      | some v => p2 ++ "\n\nAdditional context from external API:\n" ++ v
      | none => p2
    let hasAnyRestrictions :=
      hasTagRestrictions || hasCorrespondentRestrictions || hasDocTypeRestrictions
    let stepTags :=
      if env.USE_PROMPT_TAGS == some "yes" && !hasAnyRestrictions then
        (p3 ++ "\n\nTake these tags and try to match one or more to the document content.\n\n" ++
          cfg.specialPromptPreDefinedTags,
         env.PROMPT_TAGS.getD "undefined")
      else (p3, "")
    let systemPrompt :=
      match customPrompt with
      | some cp => cp ++ "\n\n" ++ cfg'.mustHavePrompt
      | none => stepTags.1
    .ok (systemPrompt, stepTags.2, cfg')

/-- `availableTokens` of the custom service (lines 190-198):
`Number(config.tokenLimit) - (totalPromptTokens + Number(config.responseTokens))`,
an integer that may be negative. -/
def customAvailable (cfg : Config) (env : EnvVars)
    (systemPrompt promptTags : String) : Int :=
  (cfg.tokenLimit : Int) -
    ((calculateTotalPromptTokens systemPrompt
        (if env.USE_PROMPT_TAGS == some "yes" then [promptTags] else []) : Int) +
      (cfg.responseTokens : Int))

/-- `analyzeDocument` of the custom OpenAI-compatible service, as one pure
function of its inputs and the backend's behaviour. The client exists exactly
when `config.aiProvider === 'custom'`; thumbnail caching and `console` output
are not modelled; the `./logs/response.txt` append (which happens once the
model output parses) is recorded as an event. The catch block (lines 283-290)
turns any thrown message into the degraded outcome. -/
def customAnalyzeDocument (cfg : Config) (env : EnvVars) (content : String)
    (existingTags existingCorrespondentList existingDocumentTypesList : List String)
    (_id : String) (customPrompt : Option String) (opts : AnalysisOptions)
    (backend : ChatBackend) : ServiceRun :=
  if cfg.aiProvider ≠ "custom" then
    { outcome := catchOutcome "Custom OpenAI client not initialized",
      finalConfig := cfg, events := [] }
  else
    match customPromptAssembly cfg env existingTags existingCorrespondentList
        existingDocumentTypesList customPrompt opts with
    | .error m => { outcome := catchOutcome m, finalConfig := cfg, events := [] }
    | .ok (systemPrompt, promptTags, cfg') =>
      let availableTokens := customAvailable cfg env systemPrompt promptTags
      if availableTokens ≤ 0 then
        { outcome := catchOutcome "Token limit exceeded: prompt too large for available token limit",
          finalConfig := cfg', events := [] }
      else
        let truncatedContent := truncateToTokenLimit content availableTokens
        match backend with
        | .unreachable m =>
          { outcome := catchOutcome m, finalConfig := cfg', events := [.backendRequest none] }
        | .ok response =>
          match response.content with
          | none =>
            { outcome := catchOutcome "Invalid API response structure",
              finalConfig := cfg', events := [.backendRequest none] }
          | some raw =>
            let jsonContent := jsTrim (stripCodeFences raw)
            match jsonParse jsonContent with
            | none =>
              { outcome := catchOutcome "Invalid JSON response from API",
                finalConfig := cfg', events := [.backendRequest none] }
            | some parsedResponse =>
              if ¬ jsTruthy parsedResponse then
                { outcome := catchOutcome "Invalid response structure: missing tags array or correspondent string",
                  finalConfig := cfg', events := [.backendRequest none, .responseLogAppend] }
              else
                match jsonGet parsedResponse "tags", jsonGet parsedResponse "correspondent" with
                | some (.arr _), some (.str _) =>
                  { outcome :=
                      { document := parsedResponse,
                        metrics := some response.usage,
                        truncated := some (decide (truncatedContent.length < content.length)),
                        error := none },
                    finalConfig := cfg', events := [.backendRequest none, .responseLogAppend] }
                | _, _ =>
                  { outcome := catchOutcome "Invalid response structure: missing tags array or correspondent string",
                    finalConfig := cfg', events := [.backendRequest none, .responseLogAppend] }


/-- The estimated prompt tokens the Ollama `analyzeDocument` computes for a
call: the same expression it feeds to `_calculateNumCtx`
(`_calculatePromptTokenCount(systemPrompt + JSON.stringify(content))` after
content truncation), exposed for stating budget facts; `none` when prompt
assembly throws. -/
def ollamaAssembledPromptTokens (cfg : Config) (env : EnvVars) (content : String)
    (existingTags existingCorrespondentList existingDocumentTypesList : List String)
    (customPrompt : Option String) (opts : AnalysisOptions) : Option Nat :=
  let buildE : Except String (String × Config) :=
    match customPrompt with
    | none => ollamaBuildSystemPrompt cfg env existingTags existingCorrespondentList
        existingDocumentTypesList opts
    | some cp =>
      match ollamaCustomPromptBuild cfg env cp with
      | .error m => .error m
      | .ok p => .ok (p, cfg)
  match buildE with
  | .error _ => none
  | .ok (systemPrompt, _) =>
    some (calculatePromptTokenCount
      (systemPrompt ++ jsonQuote (ollamaTruncateContent env content)))

/-- A configuration fixture: `custom` provider, a must-have template still
carrying the `%CUSTOMFIELDS%` placeholder, all restriction flags off. -/
def exampleConfig : Config :=
  { tokenLimit := 8000,
    responseTokens := 1000,
    mustHavePrompt := "MUST %CUSTOMFIELDS% END",
    restrictToExistingTags := "no",
    restrictToExistingCorrespondents := "no",
    restrictToExistingDocumentTypes := "no",
    useExistingData := "no",
    specialPromptPreDefinedTags := "",
    aiProvider := "custom" }

/-- An environment fixture: base prompt set, no custom fields, no prompt
tags, default content ceiling. -/
def exampleEnv : EnvVars :=
  { SYSTEM_PROMPT := some "You are a document analyzer.",
    CUSTOM_FIELDS := none,
    USE_PROMPT_TAGS := none,
    PROMPT_TAGS := none,
    CONTENT_MAX_LENGTH := none }

/-- Options with the tag restriction explicitly enabled. -/
def optsTagRestrict : AnalysisOptions :=
  { restrictToExistingTags := some true,
    restrictToExistingCorrespondents := none,
    restrictToExistingDocumentTypes := none,
    externalApiData := none }

/-- Options with every recognised field absent. -/
def optsDefault : AnalysisOptions :=
  { restrictToExistingTags := none,
    restrictToExistingCorrespondents := none,
    restrictToExistingDocumentTypes := none,
    externalApiData := none }

/-- The model response of spec Scenario A:
`{"tags":["Appliance","Dishwasher"],"correspondent":"Acme"}`. -/
def scenarioAResponse : String :=
  "\x7b\"tags\":[\"Appliance\",\"Dishwasher\"],\"correspondent\":\"Acme\"\x7d"

/-- A model response carrying one tag outside any allow-list. -/
def strayTagResponse : String :=
  "\x7b\"tags\":[\"X\"],\"correspondent\":\"A\"\x7d"

/-- The fenced model response of spec Scenario B. -/
def fencedResponse : String :=
  "```json\n\x7b\"tags\":[],\"correspondent\":null\x7d\n```"

/-- A config whose token ceiling (1000) is below the Ollama service's
reserved 1024 response tokens, so any prompt exceeds the budget. -/
def smallLimitConfig : Config := { exampleConfig with tokenLimit := 1000 }

/-- A config with a zero token ceiling: the custom service's available-token
computation is necessarily non-positive. -/
def zeroLimitConfig : Config := { exampleConfig with tokenLimit := 0, responseTokens := 0 }

/-- A response string whose regex-extracted brace span only parses after
sanitization (trailing comma), and which carries a `document_type`. -/
def sanitizeOnlyResponse : String :=
  "x \x7b\"tags\":[\"a\"],\"document_type\":\"Invoice\",\x7d"

/-- Replacing key `k` throughout makes `(k, v)` the first `k`-binding. -/
theorem lookupPair_map_set (k : String) (v : Json) :
    ∀ fs : List (String × Json), hasKey fs k = true →
      lookupPair (fs.map (fun p => if p.1 == k then (k, v) else p)) k = some (k, v) := by
  intro fs
  induction fs with
  | nil => intro h; simp [hasKey] at h
  | cons p fs ih =>
    intro h
    by_cases hp : (p.1 == k) = true
    · simp [lookupPair, hp]
    · have h' : hasKey fs k = true := by
        have := h
        simp only [hasKey, hp, Bool.false_or] at this
        exact this
      simp only [List.map_cons, hp, if_false, lookupPair]
      rw [if_neg (by simpa using hp)]
      exact ih h'

/-- Appending a fresh `k`-binding to a `k`-free list makes it the binding. -/
theorem lookupPair_append_set (k : String) (v : Json) :
    ∀ fs : List (String × Json), hasKey fs k = false →
      lookupPair (fs ++ [(k, v)]) k = some (k, v) := by
  intro fs
  induction fs with
  | nil => intro _; simp [lookupPair]
  | cons p fs ih =>
    intro h
    have hp : (p.1 == k) = false := by
      by_contra hc
      simp only [Bool.not_eq_false] at hc
      simp [hasKey, hc] at h
    have h' : hasKey fs k = false := by
      have := h
      simp only [hasKey, hp, Bool.false_or] at this
      exact this
    simp only [List.cons_append, lookupPair]
    rw [if_neg (by simpa using hp)]
    exact ih h'

/-- `setPairs` makes `(k, v)` the binding that lookup sees for `k`. -/
theorem lookupPair_setPairs_same (fs : List (String × Json)) (k : String) (v : Json) :
    lookupPair (setPairs fs k v) k = some (k, v) := by
  unfold setPairs
  by_cases h : hasKey fs k = true
  · rw [if_pos h]; exact lookupPair_map_set k v fs h
  · have h' : hasKey fs k = false := by simpa using h
    rw [if_neg (by simp [h'])]
    exact lookupPair_append_set k v fs h'

/-- Replacing key `k` throughout leaves lookups of other keys unchanged. -/
theorem lookupPair_map_set_ne {k k' : String} (v : Json) (hne : k' ≠ k) :
    ∀ fs : List (String × Json),
      lookupPair (fs.map (fun p => if p.1 == k then (k, v) else p)) k' =
        lookupPair fs k' := by
  intro fs
  induction fs with
  | nil => rfl
  | cons p fs ih =>
    by_cases hp : (p.1 == k) = true
    · have hpk : p.1 = k := by simpa using hp
      have h1 : ¬ p.1 = k' := by rw [hpk]; exact fun hc => hne hc.symm
      simp only [List.map_cons, hp, if_true, lookupPair]
      rw [if_neg (by simp; exact fun hc => hne hc.symm), if_neg (by simpa using h1)]
      exact ih
    · simp only [List.map_cons, hp, Bool.false_eq_true, if_false, lookupPair]
      by_cases hq : (p.1 == k') = true
      · rw [if_pos hq, if_pos hq]
      · rw [if_neg (by simpa using hq), if_neg (by simpa using hq)]
        exact ih

/-- Appending a `k`-binding leaves lookups of other keys unchanged. -/
theorem lookupPair_append_ne {k k' : String} (v : Json) (hne : k' ≠ k) :
    ∀ fs : List (String × Json),
      lookupPair (fs ++ [(k, v)]) k' = lookupPair fs k' := by
  intro fs
  induction fs with
  | nil =>
    simp only [List.nil_append, lookupPair]
    rw [if_neg (by simp; exact fun hc => hne hc.symm)]
  | cons p fs ih =>
    simp only [List.cons_append, lookupPair]
    by_cases hq : (p.1 == k') = true
    · rw [if_pos hq, if_pos hq]
    · rw [if_neg (by simpa using hq), if_neg (by simpa using hq)]
      exact ih

/-- `setPairs` on one key leaves lookups of other keys unchanged. -/
theorem lookupPair_setPairs_ne {k k' : String} (v : Json) (hne : k' ≠ k)
    (fs : List (String × Json)) :
    lookupPair (setPairs fs k v) k' = lookupPair fs k' := by
  unfold setPairs
  by_cases h : hasKey fs k = true
  · rw [if_pos h]; exact lookupPair_map_set_ne v hne fs
  · rw [if_neg (by simpa using h)]; exact lookupPair_append_ne v hne fs

/-- `(jsonSet obj k v).k = v`. -/
theorem jsonGet_jsonSet_same (fs : List (String × Json)) (k : String) (v : Json) :
    jsonGet (jsonSet (.obj fs) k v) k = some v := by
  simp [jsonSet, jsonGet, lookupPair_setPairs_same]

/-- `jsonSet` on one key does not change reads of other keys. -/
theorem jsonGet_jsonSet_ne {k k' : String} (hne : k' ≠ k) (j : Json) (v : Json) :
    jsonGet (jsonSet j k v) k' = jsonGet j k' := by
  cases j <;> simp [jsonSet, jsonGet]
  rw [lookupPair_setPairs_ne v hne]

/-- Replacing key `k` by `(k, v)` is the identity when every `k`-binding
already is `(k, v)`. -/
theorem map_set_absorb (k : String) (v : Json) :
    ∀ fs : List (String × Json), (∀ p ∈ fs, p.1 = k → p = (k, v)) →
      fs.map (fun p => if p.1 == k then (k, v) else p) = fs := by
  intro fs
  induction fs with
  | nil => intro _; rfl
  | cons p fs ih =>
    intro hall
    have htail : ∀ q ∈ fs, q.1 = k → q = (k, v) := fun q hq =>
      hall q (List.mem_cons_of_mem p hq)
    simp only [List.map_cons]
    by_cases hp : (p.1 == k) = true
    · have hpk : p.1 = k := by simpa using hp
      have hpv : p = (k, v) := hall p (List.mem_cons_self p fs) hpk
      rw [if_pos hp, ih htail, ← hpv]
    · rw [if_neg hp, ih htail]

/-- `setPairs` is the identity when the key is bound and every binding of it
already carries the assigned value. -/
theorem setPairs_absorb (fs : List (String × Json)) (k : String) (v : Json)
    (hkey : hasKey fs k = true) (hall : ∀ p ∈ fs, p.1 = k → p = (k, v)) :
    setPairs fs k v = fs := by
  unfold setPairs
  rw [if_pos hkey]
  exact map_set_absorb k v fs hall

/-- `hasKey` distributes over append. -/
theorem hasKey_append (k : String) :
    ∀ fs gs : List (String × Json), hasKey (fs ++ gs) k = (hasKey fs k || hasKey gs k) := by
  intro fs gs
  induction fs with
  | nil => simp [hasKey]
  | cons p fs ih => simp [hasKey, ih, Bool.or_assoc]

/-- A list without key `k` has no `k`-binding. -/
theorem hasKey_false_forall {k : String} :
    ∀ fs : List (String × Json), hasKey fs k = false → ∀ p ∈ fs, (p.1 == k) = false := by
  intro fs
  induction fs with
  | nil => intro _ p hp; cases hp
  | cons q fs ih =>
    intro h p hp
    have hq : (q.1 == k) = false := by
      by_contra hc
      simp only [Bool.not_eq_false] at hc
      simp [hasKey, hc] at h
    have h' : hasKey fs k = false := by
      have := h
      simp only [hasKey, hq, Bool.false_or] at this
      exact this
    rcases List.mem_cons.mp hp with rfl | hmem
    · exact hq
    · exact ih h' p hmem

/-- Replacing another key `k'` preserves that `k` is bound. -/
theorem hasKey_map_set_other {k k' : String} (v' : Json) (hne : k ≠ k') :
    ∀ fs : List (String × Json), hasKey fs k = true →
      hasKey (fs.map (fun p => if p.1 == k' then (k', v') else p)) k = true := by
  intro fs
  induction fs with
  | nil => intro h; simp [hasKey] at h
  | cons p fs ih =>
    intro h
    simp only [List.map_cons, hasKey]
    by_cases hp : (p.1 == k) = true
    · have hpk : p.1 = k := by simpa using hp
      have hq : (p.1 == k') = false := by
        simp [hpk]
        exact fun hc => hne hc
      rw [if_neg (by simp [hq])]
      rw [hp]
      rfl
    · have h' : hasKey fs k = true := by
        have := h
        simp only [hasKey, hp, Bool.false_or] at this
        exact this
      by_cases hq : (p.1 == k') = true
      · rw [if_pos hq]
        have : ((k', v').1 == k) = false := by
          simp
          exact fun hc => hne hc.symm
        rw [this, Bool.false_or]
        exact ih h'
      · rw [if_neg hq, (by simpa using hp : (p.1 == k) = false), Bool.false_or]
        exact ih h'

/-- After `setPairs fs k v`, the key `k` is bound. -/
theorem hasKey_setPairs_self (fs : List (String × Json)) (k : String) (v : Json) :
    hasKey (setPairs fs k v) k = true := by
  unfold setPairs
  by_cases h : hasKey fs k = true
  · rw [if_pos h]
    induction fs with
    | nil => simp [hasKey] at h
    | cons p fs ih =>
      simp only [List.map_cons, hasKey]
      by_cases hp : (p.1 == k) = true
      · rw [if_pos hp]
        simp
      · rw [if_neg hp, (by simpa using hp : (p.1 == k) = false), Bool.false_or]
        have h' : hasKey fs k = true := by
          have := h
          simp only [hasKey, hp, Bool.false_or] at this
          exact this
        exact ih h'
  · rw [if_neg h, hasKey_append]
    simp [hasKey]

/-- After `setPairs fs k v`, every `k`-binding is `(k, v)`. -/
theorem allEq_setPairs_self (fs : List (String × Json)) (k : String) (v : Json) :
    ∀ p ∈ setPairs fs k v, p.1 = k → p = (k, v) := by
  unfold setPairs
  by_cases h : hasKey fs k = true
  · rw [if_pos h]
    intro p hp hk
    rcases List.mem_map.mp hp with ⟨q, _, rfl⟩
    by_cases hq : (q.1 == k) = true
    · rw [if_pos hq]
    · rw [if_neg hq] at hk ⊢
      exact absurd (by simpa using hk : (q.1 == k) = true) hq
  · rw [if_neg h]
    intro p hp hk
    rcases List.mem_append.mp hp with hmem | hmem
    · have := hasKey_false_forall fs (by simpa using h) p hmem
      exact absurd (by simpa using hk : (p.1 == k) = true) (by simp [this])
    · simpa using List.mem_singleton.mp hmem

/-- Replacing another key `k'` preserves "every `k`-binding is `(k, v)`". -/
theorem allEq_map_set_other {k k' : String} (v v' : Json) (hne : k ≠ k')
    (fs : List (String × Json)) (hall : ∀ p ∈ fs, p.1 = k → p = (k, v)) :
    ∀ p ∈ fs.map (fun p => if p.1 == k' then (k', v') else p), p.1 = k → p = (k, v) := by
  intro p hp hk
  rcases List.mem_map.mp hp with ⟨q, hq, rfl⟩
  by_cases hqk : (q.1 == k') = true
  · exfalso
    rw [if_pos hqk] at hk
    exact hne (by simpa using hk.symm)
  · rw [if_neg hqk] at hk ⊢
    exact hall q hq hk

/-- `setPairs` on another key preserves that key `k` is bound. -/
theorem hasKey_setPairs_other {k k' : String} (hne : k ≠ k') (v' : Json)
    (fs : List (String × Json)) (h : hasKey fs k = true) :
    hasKey (setPairs fs k' v') k = true := by
  unfold setPairs
  by_cases h2 : hasKey fs k' = true
  · rw [if_pos h2]
    exact hasKey_map_set_other v' hne fs h
  · rw [if_neg h2, hasKey_append, h]
    rfl

/-- `setPairs` on another key preserves "every `k`-binding is `(k, v)`". -/
theorem allEq_setPairs_other {k k' : String} (hne : k ≠ k') (v v' : Json)
    (fs : List (String × Json)) (hall : ∀ p ∈ fs, p.1 = k → p = (k, v)) :
    ∀ p ∈ setPairs fs k' v', p.1 = k → p = (k, v) := by
  unfold setPairs
  by_cases h2 : hasKey fs k' = true
  · rw [if_pos h2]
    exact allEq_map_set_other v v' hne fs hall
  · rw [if_neg h2]
    intro p hp hk
    rcases List.mem_append.mp hp with hmem | hmem
    · exact hall p hmem hk
    · exfalso
      have hpe : p = (k', v') := List.mem_singleton.mp hmem
      rw [hpe] at hk
      exact hne hk.symm

/-- Filtering twice by the same predicate is filtering once. -/
theorem filter_idem {α : Type} (p : α → Bool) :
    ∀ l : List α, (l.filter p).filter p = l.filter p := by
  intro l
  induction l with
  | nil => rfl
  | cons a l ih =>
    by_cases h : p a = true
    · simp [List.filter_cons, h, ih]
    · simp [List.filter_cons, h, ih]

/-- A successful property read means the value is an object. -/
theorem jsonGet_some_obj {x : Json} {k : String} {v : Json}
    (h : jsonGet x k = some v) : ∃ gs, x = Json.obj gs := by
  cases x with
  | obj gs => exact ⟨gs, rfl⟩
  | null => simp [jsonGet] at h
  | bool b => simp [jsonGet] at h
  | num n => simp [jsonGet] at h
  | str s => simp [jsonGet] at h
  | arr es => simp [jsonGet] at h

/-- Reading the assigned key of `jsonSet` on an object yields the value. -/
theorem jsonGet_obj_setPairs (gs : List (String × Json)) (k : String) (v : Json) :
    jsonGet (.obj (setPairs gs k v)) k = some v := by
  simp [jsonGet, lookupPair_setPairs_same]

/-- The document-type-enforcement step never changes the `tags` member. -/
theorem enforceDocTypeStep_get_tags (opts : AnalysisOptions) (dl : List String)
    (x : Json) : jsonGet (enforceDocTypeStep opts dl x) "tags" = jsonGet x "tags" := by
  unfold enforceDocTypeStep
  by_cases hc : (optTruthy opts.restrictToExistingDocumentTypes && !dl.isEmpty) = true
  · rw [if_pos hc]
    cases hg : jsonGet x "document_type" with
    | none => simp only [hg]
    | some dt =>
      simp only [hg]
      by_cases hdt : (jsTruthy dt && !docTypeInList dl dt) = true
      · rw [if_pos hdt]
        exact jsonGet_jsonSet_ne (by decide) x .null
      · rw [if_neg hdt]
  · rw [if_neg hc]

/-- The document-type-enforcement step either leaves the document alone or
nulls its `document_type` member on an object. -/
theorem enforceDocTypeStep_shape (opts : AnalysisOptions) (dl : List String)
    (x : Json) : enforceDocTypeStep opts dl x = x ∨
      ∃ gs, x = Json.obj gs ∧
        enforceDocTypeStep opts dl x = .obj (setPairs gs "document_type" .null) := by
  unfold enforceDocTypeStep
  by_cases hc : (optTruthy opts.restrictToExistingDocumentTypes && !dl.isEmpty) = true
  · rw [if_pos hc]
    cases hg : jsonGet x "document_type" with
    | none => exact Or.inl (by simp only [hg])
    | some dt =>
      by_cases hdt : (jsTruthy dt && !docTypeInList dl dt) = true
      · rcases jsonGet_some_obj hg with ⟨gs, rfl⟩
        refine Or.inr ⟨gs, rfl, ?_⟩
        simp only [hg]
        rw [if_pos hdt]
        rfl
      · refine Or.inl ?_
        simp only [hg]
        rw [if_neg hdt]
  · rw [if_neg hc]
    exact Or.inl rfl

/-- The document-type-enforcement step is idempotent. -/
theorem enforceDocTypeStep_idem (opts : AnalysisOptions) (dl : List String)
    (x : Json) : enforceDocTypeStep opts dl (enforceDocTypeStep opts dl x) =
      enforceDocTypeStep opts dl x := by
  by_cases hc : (optTruthy opts.restrictToExistingDocumentTypes && !dl.isEmpty) = true
  · cases hg : jsonGet x "document_type" with
    | none =>
      have hBx : enforceDocTypeStep opts dl x = x := by
        unfold enforceDocTypeStep
        rw [if_pos hc]
        simp only [hg]
      rw [hBx, hBx]
    | some dt =>
      by_cases hdt : (jsTruthy dt && !docTypeInList dl dt) = true
      · rcases jsonGet_some_obj hg with ⟨gs, rfl⟩
        have hBx : enforceDocTypeStep opts dl (Json.obj gs) =
            .obj (setPairs gs "document_type" .null) := by
          unfold enforceDocTypeStep
          rw [if_pos hc]
          simp only [hg]
          rw [if_pos hdt]
          rfl
        rw [hBx]
        have hget : jsonGet (Json.obj (setPairs gs "document_type" .null))
            "document_type" = some .null := jsonGet_obj_setPairs gs _ _
        unfold enforceDocTypeStep
        rw [if_pos hc]
        simp only [hget]
        rw [if_neg (by simp [jsTruthy])]
      · have hBx : enforceDocTypeStep opts dl x = x := by
          unfold enforceDocTypeStep
          rw [if_pos hc]
          simp only [hg]
          rw [if_neg hdt]
        rw [hBx, hBx]
  · have hB : ∀ y, enforceDocTypeStep opts dl y = y := fun y => by
      unfold enforceDocTypeStep
      rw [if_neg hc]
    rw [hB]

/-- The tag-enforcement step does nothing when `tags` is not an array. -/
theorem enforceTagsStep_self_of_ne_arr (opts : AnalysisOptions) (tl : List String)
    (d : Json) (hc : (optTruthy opts.restrictToExistingTags && !tl.isEmpty) = true)
    (h : ∀ xs, jsonGet d "tags" ≠ some (Json.arr xs)) :
    enforceTagsStep opts tl d = d := by
  unfold enforceTagsStep
  rw [if_pos hc]
  cases hg : jsonGet d "tags" with
  | none => simp only [hg]
  | some v =>
    cases v with
    | arr xs => exact absurd hg (h xs)
    | null => simp only [hg]
    | bool b => simp only [hg]
    | num n => simp only [hg]
    | str s => simp only [hg]
    | obj fs => simp only [hg]

/-- The tag-enforcement step is the identity on anything the combined pass
has already produced. -/
theorem enforceTagsStep_after (opts : AnalysisOptions) (tl dl : List String)
    (d : Json) :
    enforceTagsStep opts tl (enforceDocTypeStep opts dl (enforceTagsStep opts tl d)) =
      enforceDocTypeStep opts dl (enforceTagsStep opts tl d) := by
  by_cases hc : (optTruthy opts.restrictToExistingTags && !tl.isEmpty) = true
  · by_cases harr : ∃ xs, jsonGet d "tags" = some (Json.arr xs)
    · rcases harr with ⟨xs, hg⟩
      rcases jsonGet_some_obj hg with ⟨gs, rfl⟩
      have hAd : enforceTagsStep opts tl (Json.obj gs) =
          .obj (setPairs gs "tags" (.arr (xs.filter (tagAllowed tl)))) := by
        unfold enforceTagsStep
        rw [if_pos hc]
        simp only [hg]
        rfl
      rw [hAd]
      have hYget : jsonGet (enforceDocTypeStep opts dl
          (Json.obj (setPairs gs "tags" (.arr (xs.filter (tagAllowed tl))))))
          "tags" = some (.arr (xs.filter (tagAllowed tl))) := by
        rw [enforceDocTypeStep_get_tags]
        exact jsonGet_obj_setPairs gs _ _
      unfold enforceTagsStep
      rw [if_pos hc]
      simp only [hYget]
      rw [filter_idem]
      rcases enforceDocTypeStep_shape opts dl
          (Json.obj (setPairs gs "tags" (.arr (xs.filter (tagAllowed tl))))) with
        hY | ⟨hs, hX, hY⟩
      · rw [hY]
        show Json.obj (setPairs (setPairs gs "tags" (.arr (xs.filter (tagAllowed tl))))
          "tags" (.arr (xs.filter (tagAllowed tl)))) = _
        rw [setPairs_absorb _ _ _ (hasKey_setPairs_self gs _ _)
          (allEq_setPairs_self gs _ _)]
      · have hhs : hs = setPairs gs "tags" (.arr (xs.filter (tagAllowed tl))) := by
          injection hX with h
          exact h.symm
        subst hhs
        rw [hY]
        show Json.obj (setPairs (setPairs (setPairs gs "tags" _) "document_type" .null)
          "tags" (.arr (xs.filter (tagAllowed tl)))) = _
        rw [setPairs_absorb _ _ _
          (hasKey_setPairs_other (by decide) .null _ (hasKey_setPairs_self gs _ _))
          (allEq_setPairs_other (by decide) _ .null _ (allEq_setPairs_self gs _ _))]
    · have hne : ∀ ys, jsonGet d "tags" ≠ some (Json.arr ys) := fun ys hy =>
        harr ⟨ys, hy⟩
      rw [enforceTagsStep_self_of_ne_arr opts tl d hc hne]
      exact enforceTagsStep_self_of_ne_arr opts tl _ hc (fun ys hy => by
        rw [enforceDocTypeStep_get_tags] at hy
        exact hne ys hy)
  · have hA : ∀ y, enforceTagsStep opts tl y = y := fun y => by
      unfold enforceTagsStep
      rw [if_neg hc]
    rw [hA]

/-- The combined restriction-enforcement pass is idempotent. -/
theorem enforceRestrictions_idem (opts : AnalysisOptions) (tl dl : List String)
    (d : Json) :
    enforceRestrictions opts tl dl (enforceRestrictions opts tl dl d) =
      enforceRestrictions opts tl dl d := by
  unfold enforceRestrictions
  rw [enforceTagsStep_after, enforceDocTypeStep_idem]

/-- The `tags` member produced by the normalizers is always an array. -/
theorem getTagsField_arr (p : Json) : ∃ xs, getTagsField p = Json.arr xs := by
  unfold getTagsField
  cases hg : jsonGet p "tags" with
  | none => exact ⟨[], by simp only [hg]⟩
  | some v =>
    cases v with
    | arr xs => exact ⟨xs, by simp only [hg]⟩
    | null => exact ⟨[], by simp only [hg]⟩
    | bool b => exact ⟨[], by simp only [hg]⟩
    | num n => exact ⟨[], by simp only [hg]⟩
    | str s => exact ⟨[], by simp only [hg]⟩
    | obj fs => exact ⟨[], by simp only [hg]⟩

/-- Reading `tags` from a seven-field normalized result. -/
theorem jsonGet_normalizeParsed_tags (p : Json) :
    jsonGet (normalizeParsed p) "tags" = some (getTagsField p) := rfl

/-- Reading `tags` from a five-field sanitized result. -/
theorem jsonGet_sanitizedNormalize_tags (r : Json) :
    jsonGet (sanitizedNormalize r) "tags" = some (getTagsField r) := rfl

/-- Reading `tags` from the degraded result. -/
theorem jsonGet_degradedDoc_tags : jsonGet degradedDoc "tags" = some (.arr []) := rfl

/-- The fallback parser always produces an array `tags` member. -/
theorem ollamaParseResponseFallback_tags (s : String) :
    ∃ xs, jsonGet (ollamaParseResponseFallback s) "tags" = some (Json.arr xs) := by
  unfold ollamaParseResponseFallback
  cases he : extractBraceSpan s with
  | none => exact ⟨[], by simp only [he]; rfl⟩
  | some jsonStr =>
    cases hp : jsonParse jsonStr with
    | some result =>
      rcases getTagsField_arr result with ⟨xs, hx⟩
      exact ⟨xs, by simp only [he, hp, jsonGet_normalizeParsed_tags, hx]⟩
    | none =>
      cases hq : jsonParse (sanitizeJsonString jsonStr) with
      | some sanitizedResult =>
        rcases getTagsField_arr sanitizedResult with ⟨xs, hx⟩
        exact ⟨xs, by simp only [he, hp, hq, jsonGet_sanitizedNormalize_tags, hx]⟩
      | none => exact ⟨[], by simp only [he, hp, hq]; rfl⟩

/-- Every document `_processOllamaResponse` returns has an array `tags`
member. -/
theorem processOllamaResponse_tags (r : Option Json) (d : Json)
    (h : processOllamaResponse r = .ok d) :
    ∃ xs, jsonGet d "tags" = some (Json.arr xs) := by
  unfold processOllamaResponse at h
  split at h
  · cases h
  · split at h
    · split at h <;>
        (injection h with h; subst h)
      · exact ollamaParseResponseFallback_tags _
      · rcases getTagsField_arr _ with ⟨xs, hx⟩
        exact ⟨xs, by rw [jsonGet_normalizeParsed_tags, hx]⟩
      · exact ollamaParseResponseFallback_tags _
    · injection h with h
      subst h
      rcases getTagsField_arr _ with ⟨xs, hx⟩
      exact ⟨xs, by rw [jsonGet_normalizeParsed_tags, hx]⟩
    · injection h with h
      subst h
      rcases getTagsField_arr _ with ⟨xs, hx⟩
      exact ⟨xs, by rw [jsonGet_normalizeParsed_tags, hx]⟩
    · cases h

/-- With the tag restriction active and a non-empty allow-list, enforcement
replaces the array `tags` member by its allow-list filtering. -/
theorem enforceRestrictions_tags_filter (opts : AnalysisOptions)
    (tl dl : List String) (d : Json) (xs : List Json)
    (hopt : opts.restrictToExistingTags = some true) (htl : tl ≠ [])
    (hg : jsonGet d "tags" = some (.arr xs)) :
    jsonGet (enforceRestrictions opts tl dl d) "tags" =
      some (.arr (xs.filter (tagAllowed tl))) := by
  have hc : (optTruthy opts.restrictToExistingTags && !tl.isEmpty) = true := by
    cases tl with
    | nil => exact absurd rfl htl
    | cons a l => simp [optTruthy, hopt, List.isEmpty]
  rcases jsonGet_some_obj hg with ⟨gs, rfl⟩
  unfold enforceRestrictions
  rw [enforceDocTypeStep_get_tags]
  unfold enforceTagsStep
  rw [if_pos hc]
  simp only [hg]
  exact jsonGet_obj_setPairs gs _ _

/-- Enforcement keeps `tags` an array. -/
theorem enforceRestrictions_tags_arr (opts : AnalysisOptions)
    (tl dl : List String) (d : Json) (xs : List Json)
    (hg : jsonGet d "tags" = some (.arr xs)) :
    ∃ ys, jsonGet (enforceRestrictions opts tl dl d) "tags" = some (Json.arr ys) := by
  unfold enforceRestrictions
  rw [enforceDocTypeStep_get_tags]
  by_cases hc : (optTruthy opts.restrictToExistingTags && !tl.isEmpty) = true
  · rcases jsonGet_some_obj hg with ⟨gs, rfl⟩
    unfold enforceTagsStep
    rw [if_pos hc]
    simp only [hg]
    exact ⟨_, jsonGet_obj_setPairs gs _ _⟩
  · unfold enforceTagsStep
    rw [if_neg hc]
    exact ⟨xs, hg⟩

/-- A value passing the tag filter is a string from the allow-list. -/
theorem tagAllowed_elim {tl : List String} {t : Json}
    (h : tagAllowed tl t = true) : ∃ s, t = Json.str s ∧ s ∈ tl := by
  cases t with
  | str s =>
    refine ⟨s, rfl, ?_⟩
    have hcont : tl.contains s = true := by simpa [tagAllowed] using h
    exact List.mem_of_elem_eq_true hcont
  | null => simp [tagAllowed] at h
  | bool b => simp [tagAllowed] at h
  | num n => simp [tagAllowed] at h
  | arr es => simp [tagAllowed] at h
  | obj fs => simp [tagAllowed] at h

/-- Every Ollama analysis call either lands in the catch block or returns the
enforced normalized document of a successfully processed backend response. -/
theorem ollamaAnalyzeDocument_cases (cfg : Config) (env : EnvVars) (content : String)
    (tags corrs dts : List String) (id : String) (cp : Option String)
    (opts : AnalysisOptions) (backend : OllamaBackend) :
    (∃ m, (ollamaAnalyzeDocument cfg env content tags corrs dts id cp opts backend).outcome =
      catchOutcome m) ∨
    (∃ respField parsed, backend = .ok respField ∧
      processOllamaResponse respField = .ok parsed ∧
      (ollamaAnalyzeDocument cfg env content tags corrs dts id cp opts backend).outcome =
        { document := enforceRestrictions opts tags dts parsed,
          metrics := some ⟨0, 0, 0⟩, truncated := some false, error := none }) := by
  simp only [ollamaAnalyzeDocument]
  split
  · exact Or.inl ⟨_, rfl⟩
  · split
    · exact Or.inl ⟨_, rfl⟩
    · exact Or.inl ⟨_, rfl⟩
    · split
      · exact Or.inl ⟨_, rfl⟩
      · rename_i heq
        exact Or.inr ⟨_, _, rfl, heq, rfl⟩

/-- Every custom-service analysis call either lands in the catch block or
returns the raw parsed document, which then has an array `tags` member, no
error, and mapped usage metrics. -/
theorem customAnalyzeDocument_cases (cfg : Config) (env : EnvVars) (content : String)
    (tags corrs dts : List String) (id : String) (cp : Option String)
    (opts : AnalysisOptions) (backend : ChatBackend) :
    (∃ m, (customAnalyzeDocument cfg env content tags corrs dts id cp opts backend).outcome =
      catchOutcome m) ∨
    ((customAnalyzeDocument cfg env content tags corrs dts id cp opts backend).outcome.error =
        none ∧
      (∃ xs, jsonGet
        (customAnalyzeDocument cfg env content tags corrs dts id cp opts backend).outcome.document
        "tags" = some (Json.arr xs)) ∧
      ∃ mt, (customAnalyzeDocument cfg env content tags corrs dts id cp opts backend).outcome.metrics =
        some mt) := by
  simp only [customAnalyzeDocument]
  split
  · exact Or.inl ⟨_, rfl⟩
  · split
    · exact Or.inl ⟨_, rfl⟩
    · split
      · exact Or.inl ⟨_, rfl⟩
      · split
        · exact Or.inl ⟨_, rfl⟩
        · split
          · exact Or.inl ⟨_, rfl⟩
          · split
            · exact Or.inl ⟨_, rfl⟩
            · split
              · exact Or.inl ⟨_, rfl⟩
              · split
                · rename_i htags hcorr
                  exact Or.inr ⟨rfl, ⟨_, htags⟩, ⟨_, rfl⟩⟩
                · exact Or.inl ⟨_, rfl⟩

set_option maxRecDepth 8000 in
/-- Claim C1, as stated, is false on the code, in two ways. With
`restrictToExistingTags = true` but an empty allow-list, the Ollama
`analyzeDocument` skips the enforcement filter (its guard requires
`existingTags.length > 0`), so the stray model tag `"X"` reaches the final
`document.tags` even though it belongs to no (empty) allow-list. And the
custom OpenAI-compatible service applies no post-hoc tag filtering at all:
with the restriction on and the non-empty allow-list `["Appliance"]`, the
out-of-list model tag `"Dishwasher"` is returned unchanged. -/
theorem restricted_tags_escape_allowlist :
    (jsonGet (ollamaAnalyzeDocument exampleConfig exampleEnv "c" [] [] [] "1" none
      optsTagRestrict (.ok (some (.str strayTagResponse)))).outcome.document "tags" =
      some (Json.arr [Json.str "X"]) ∧
    ¬ ∃ s, Json.str "X" = Json.str s ∧ s ∈ ([] : List String)) ∧
    (jsonGet (customAnalyzeDocument exampleConfig exampleEnv "c" ["Appliance"] [] []
      "1" none optsTagRestrict
      (.ok { content := some "\x7b\"tags\":[\"Dishwasher\"],\"correspondent\":\"Acme\"\x7d",
             usage := ⟨1, 2, 3⟩ })).outcome.document "tags" =
      some (Json.arr [Json.str "Dishwasher"]) ∧
    ¬ ∃ s, Json.str "Dishwasher" = Json.str s ∧ s ∈ ["Appliance"]) := by
  refine ⟨⟨rfl, ?_⟩, rfl, ?_⟩
  · rintro ⟨s, _, hs⟩
    cases hs
  · rintro ⟨s, hv, hs⟩
    injection hv with hv
    rw [← hv] at hs
    simp at hs

/-- Claim C1 (amended): for the Ollama service, when
`options.restrictToExistingTags` is `true` and the allow-list is non-empty,
every member of the final returned `document.tags` is a string belonging to
the allow-list, on every path of the analysis call. -/
theorem ollama_final_tags_subset_allowlist (cfg : Config) (env : EnvVars)
    (content : String) (tags corrs dts : List String) (id : String)
    (cp : Option String) (opts : AnalysisOptions) (backend : OllamaBackend)
    (ts : List Json)
    (hopt : opts.restrictToExistingTags = some true) (htl : tags ≠ [])
    (hts : jsonGet (ollamaAnalyzeDocument cfg env content tags corrs dts id cp opts
      backend).outcome.document "tags" = some (Json.arr ts)) :
    ∀ t ∈ ts, ∃ s, t = Json.str s ∧ s ∈ tags := by
  rcases ollamaAnalyzeDocument_cases cfg env content tags corrs dts id cp opts backend with
    ⟨m, hm⟩ | ⟨respField, parsed, _, hp, hout⟩
  · rw [hm] at hts
    have hdeg : jsonGet (catchOutcome m).document "tags" = some (Json.arr []) := rfl
    rw [hdeg] at hts
    injection hts with hts
    injection hts with hts
    intro t ht
    rw [← hts] at ht
    cases ht
  · rw [hout] at hts
    rcases processOllamaResponse_tags respField parsed hp with ⟨xs, hxs⟩
    rw [enforceRestrictions_tags_filter opts tags dts parsed xs hopt htl hxs] at hts
    injection hts with hts
    injection hts with hts
    intro t ht
    rw [← hts] at ht
    rcases List.mem_filter.mp ht with ⟨_, hall⟩
    exact tagAllowed_elim hall

/-- Witness for the amended Claim C1 at Scenario A's input. -/
theorem ollama_final_tags_subset_allowlist_witness :
    ∃ s, Json.str "Appliance" = Json.str s ∧ s ∈ ["Appliance", "Electronics"] := by
  have h := ollama_final_tags_subset_allowlist exampleConfig exampleEnv "c"
    ["Appliance", "Electronics"] [] [] "1" none optsTagRestrict
    (.ok (some (.str scenarioAResponse))) [Json.str "Appliance"] rfl
    (by decide) rfl
  exact h (Json.str "Appliance") (by simp)

/-- Claim C2: for an Ollama analysis call with the tag restriction on and a
non-empty allow-list, on the success path the returned `document.tags` is
exactly the in-order filtering of the normalized model tags by allow-list
membership. -/
theorem ollama_enforced_tags_eq_filter (cfg : Config) (env : EnvVars)
    (content : String) (tags corrs dts : List String) (id : String)
    (cp : Option String) (opts : AnalysisOptions) (respField : Option Json)
    (parsed : Json) (xs : List Json)
    (hopt : opts.restrictToExistingTags = some true) (htl : tags ≠ [])
    (hproc : processOllamaResponse respField = .ok parsed)
    (htags : jsonGet parsed "tags" = some (.arr xs))
    (hsucc : (ollamaAnalyzeDocument cfg env content tags corrs dts id cp opts
      (.ok respField)).outcome.error = none) :
    jsonGet (ollamaAnalyzeDocument cfg env content tags corrs dts id cp opts
      (.ok respField)).outcome.document "tags" =
      some (Json.arr (xs.filter (tagAllowed tags))) := by
  rcases ollamaAnalyzeDocument_cases cfg env content tags corrs dts id cp opts
      (.ok respField) with ⟨m, hm⟩ | ⟨respField', parsed', hb, hp, hout⟩
  · rw [hm] at hsucc
    simp [catchOutcome] at hsucc
  · injection hb with hb
    subst hb
    rw [hproc] at hp
    injection hp with hp
    subst hp
    rw [hout]
    exact enforceRestrictions_tags_filter opts tags dts parsed xs hopt htl htags

/-- Witness for Claim C2: spec Scenario A. Allow-list
`["Appliance","Electronics"]`, model tags `["Appliance","Dishwasher"]`,
enforced tags `["Appliance"]`. -/
theorem ollama_enforced_tags_eq_filter_witness :
    jsonGet (ollamaAnalyzeDocument exampleConfig exampleEnv "c"
      ["Appliance", "Electronics"] [] [] "1" none optsTagRestrict
      (.ok (some (.str scenarioAResponse)))).outcome.document "tags" =
      some (Json.arr [Json.str "Appliance"]) := by
  have h := ollama_enforced_tags_eq_filter exampleConfig exampleEnv "c"
    ["Appliance", "Electronics"] [] [] "1" none optsTagRestrict
    (some (.str scenarioAResponse)) _ [Json.str "Appliance", Json.str "Dishwasher"]
    rfl (by decide) rfl rfl rfl
  exact h

/-- Claim C3, as stated, is false on the code: in the Ollama service an
unparseable model response (here with no brace span at all) does not surface
as an error string — `_parseResponse` silently degrades, and the call returns
the success shape with `error` absent, zero metrics and the degraded
document. -/
theorem ollama_unparseable_output_reports_no_error :
    (ollamaAnalyzeDocument exampleConfig exampleEnv "c" [] [] [] "1" none optsDefault
      (.ok (some (.str "no json here")))).outcome.error = none ∧
    (ollamaAnalyzeDocument exampleConfig exampleEnv "c" [] [] [] "1" none optsDefault
      (.ok (some (.str "no json here")))).outcome.document = degradedDoc := by
  exact ⟨rfl, rfl⟩

/-- Claim C3 (amended): neither analysis call ever raises: every outcome
either has `error` absent, or has `error` present with the degraded document
and null metrics. Backend-unreachable and invalid-response-shape failures
surface as the error string in both services, and unparseable model output
surfaces as the error string in the custom service; in the Ollama service,
unparseable model output instead yields the error-free degraded document. -/
theorem analyze_never_throws_and_degrades (msg : String) :
    (∀ (cfg : Config) (env : EnvVars) (content : String)
      (tags corrs dts : List String) (id : String) (cp : Option String)
      (opts : AnalysisOptions) (backend : OllamaBackend),
      (ollamaAnalyzeDocument cfg env content tags corrs dts id cp opts
        backend).outcome.error = none ∨
      ∃ m, (ollamaAnalyzeDocument cfg env content tags corrs dts id cp opts
          backend).outcome.error = some m ∧
        (ollamaAnalyzeDocument cfg env content tags corrs dts id cp opts
          backend).outcome.document = degradedDoc ∧
        (ollamaAnalyzeDocument cfg env content tags corrs dts id cp opts
          backend).outcome.metrics = none) ∧
    (∀ (cfg : Config) (env : EnvVars) (content : String)
      (tags corrs dts : List String) (id : String) (cp : Option String)
      (opts : AnalysisOptions) (backend : ChatBackend),
      (customAnalyzeDocument cfg env content tags corrs dts id cp opts
        backend).outcome.error = none ∨
      ∃ m, (customAnalyzeDocument cfg env content tags corrs dts id cp opts
          backend).outcome.error = some m ∧
        (customAnalyzeDocument cfg env content tags corrs dts id cp opts
          backend).outcome.document = degradedDoc ∧
        (customAnalyzeDocument cfg env content tags corrs dts id cp opts
          backend).outcome.metrics = none) ∧
    (ollamaAnalyzeDocument exampleConfig exampleEnv "c" [] [] [] "1" none optsDefault
      (.unreachable msg)).outcome.error = some msg ∧
    (ollamaAnalyzeDocument exampleConfig exampleEnv "c" [] [] [] "1" none optsDefault
      .noData).outcome.error = some "Invalid response from Ollama API" ∧
    (customAnalyzeDocument exampleConfig exampleEnv "c" [] [] [] "1" none optsDefault
      (.unreachable msg)).outcome.error = some msg ∧
    (customAnalyzeDocument exampleConfig exampleEnv "c" [] [] [] "1" none optsDefault
      (.ok { content := none, usage := ⟨1, 2, 3⟩ })).outcome.error =
      some "Invalid API response structure" ∧
    (customAnalyzeDocument exampleConfig exampleEnv "c" [] [] [] "1" none optsDefault
      (.ok { content := some "no json here", usage := ⟨1, 2, 3⟩ })).outcome.error =
      some "Invalid JSON response from API" ∧
    (ollamaAnalyzeDocument exampleConfig exampleEnv "c" [] [] [] "1" none optsDefault
      (.ok (some (.str "no json here")))).outcome.error = none := by
  refine ⟨?_, ?_, rfl, rfl, rfl, rfl, rfl, rfl⟩
  · intro cfg env content tags corrs dts id cp opts backend
    rcases ollamaAnalyzeDocument_cases cfg env content tags corrs dts id cp opts backend with
      ⟨m, hm⟩ | ⟨respField, parsed, _, _, hout⟩
    · exact Or.inr ⟨m, by rw [hm]; exact rfl, by rw [hm]; exact rfl, by rw [hm]; exact rfl⟩
    · exact Or.inl (by rw [hout])
  · intro cfg env content tags corrs dts id cp opts backend
    rcases customAnalyzeDocument_cases cfg env content tags corrs dts id cp opts backend with
      ⟨m, hm⟩ | ⟨herr, _, _⟩
    · exact Or.inr ⟨m, by rw [hm]; exact rfl, by rw [hm]; exact rfl, by rw [hm]; exact rfl⟩
    · exact Or.inl herr

/-- Witness for Claim C3 at a concrete network error message. -/
theorem analyze_never_throws_and_degrades_witness :
    (ollamaAnalyzeDocument exampleConfig exampleEnv "c" [] [] [] "1" none optsDefault
      (.unreachable "connect ECONNREFUSED 127.0.0.1:11434")).outcome.error =
      some "connect ECONNREFUSED 127.0.0.1:11434" :=
  (analyze_never_throws_and_degrades "connect ECONNREFUSED 127.0.0.1:11434").2.2.1

/-- Claim C5: on every path of both services, the returned `document.tags`
is an array (possibly empty) — never absent, null, or a non-array value. -/
theorem analyze_document_tags_always_array :
    (∀ (cfg : Config) (env : EnvVars) (content : String)
      (tags corrs dts : List String) (id : String) (cp : Option String)
      (opts : AnalysisOptions) (backend : OllamaBackend),
      ∃ xs, jsonGet (ollamaAnalyzeDocument cfg env content tags corrs dts id cp opts
        backend).outcome.document "tags" = some (Json.arr xs)) ∧
    (∀ (cfg : Config) (env : EnvVars) (content : String)
      (tags corrs dts : List String) (id : String) (cp : Option String)
      (opts : AnalysisOptions) (backend : ChatBackend),
      ∃ xs, jsonGet (customAnalyzeDocument cfg env content tags corrs dts id cp opts
        backend).outcome.document "tags" = some (Json.arr xs)) := by
  constructor
  · intro cfg env content tags corrs dts id cp opts backend
    rcases ollamaAnalyzeDocument_cases cfg env content tags corrs dts id cp opts backend with
      ⟨m, hm⟩ | ⟨respField, parsed, _, hp, hout⟩
    · exact ⟨[], by rw [hm]; exact rfl⟩
    · rw [hout]
      rcases processOllamaResponse_tags respField parsed hp with ⟨xs, hxs⟩
      exact enforceRestrictions_tags_arr opts tags dts parsed xs hxs
  · intro cfg env content tags corrs dts id cp opts backend
    rcases customAnalyzeDocument_cases cfg env content tags corrs dts id cp opts backend with
      ⟨m, hm⟩ | ⟨_, htags, _⟩
    · exact ⟨[], by rw [hm]; exact rfl⟩
    · exact htags

set_option maxRecDepth 8000 in
/-- Claim C4, as stated, is false on the code: the Ollama service has no
budget-exceeded failure. Here the ceiling (1000) is at most the reserved 1024
response tokens, so prompt tokens plus reserved reach the ceiling for any
prompt, yet the backend request is still issued — with `num_ctx` clamped by
`_calculateNumCtx` to the full ceiling. -/
theorem ollama_budget_exceeded_still_requests :
    smallLimitConfig.tokenLimit ≤ 1024 ∧
    (ollamaAssembledPromptTokens smallLimitConfig exampleEnv "doc" [] [] [] none
        optsDefault).getD 0 + 1024 ≥ smallLimitConfig.tokenLimit ∧
    (ollamaAnalyzeDocument smallLimitConfig exampleEnv "doc" [] [] [] "1" none
      optsDefault (.unreachable "boom")).events =
      [AnalysisEvent.backendRequest (some smallLimitConfig.tokenLimit)] := by
  refine ⟨by decide, ?_, ?_⟩
  · exact Nat.le_trans (by decide) (Nat.le_add_left 1024 _)
  · rfl

/-- Claim C4 (amended): in the custom OpenAI-compatible service, whenever the
assembled prompt's token estimate plus the reserved response tokens reaches
the configured ceiling (`availableTokens ≤ 0`), the call fails with the
token-limit-exceeded error and no backend request is issued. The Ollama
service performs no such check (see the counterexample theorem): it clamps
`num_ctx` to the ceiling and issues the request. -/
theorem custom_budget_exceeded_no_request (cfg : Config) (env : EnvVars)
    (content : String) (tags corrs dts : List String) (id : String)
    (cp : Option String) (opts : AnalysisOptions) (backend : ChatBackend)
    (sp pt : String) (cfg' : Config)
    (hprov : cfg.aiProvider = "custom")
    (hasm : customPromptAssembly cfg env tags corrs dts cp opts = .ok (sp, pt, cfg'))
    (hbud : customAvailable cfg env sp pt ≤ 0) :
    (customAnalyzeDocument cfg env content tags corrs dts id cp opts
      backend).outcome.error =
      some "Token limit exceeded: prompt too large for available token limit" ∧
    (customAnalyzeDocument cfg env content tags corrs dts id cp opts
      backend).events = [] := by
  simp only [customAnalyzeDocument]
  rw [if_neg (fun h => h hprov)]
  simp only [hasm]
  rw [if_pos hbud]
  exact ⟨rfl, rfl⟩

/-- Witness for the amended Claim C4: a zero token ceiling. -/
theorem custom_budget_exceeded_no_request_witness :
    (customAnalyzeDocument zeroLimitConfig exampleEnv "c" [] [] [] "1" none
      optsDefault (.unreachable "boom")).outcome.error =
      some "Token limit exceeded: prompt too large for available token limit" ∧
    (customAnalyzeDocument zeroLimitConfig exampleEnv "c" [] [] [] "1" none
      optsDefault (.unreachable "boom")).events = [] :=
  custom_budget_exceeded_no_request zeroLimitConfig exampleEnv "c" [] [] [] "1"
    none optsDefault (.unreachable "boom") _ _ _ rfl rfl (by decide)

/-- Claim C6, as stated, is false on the code: the custom service's
normalization of the fenced `{"tags":[],"correspondent":null}` response
reports an invalid-structure error (its validation requires
`typeof correspondent === 'string'`, which `null` fails), returning the
degraded two-field document instead of the all-null normalized shape. -/
theorem custom_fenced_null_correspondent_errors :
    (customAnalyzeDocument exampleConfig exampleEnv "c" [] [] [] "1" none optsDefault
      (.ok { content := some fencedResponse, usage := ⟨1, 2, 3⟩ })).outcome.error =
      some "Invalid response structure: missing tags array or correspondent string" ∧
    (customAnalyzeDocument exampleConfig exampleEnv "c" [] [] [] "1" none optsDefault
      (.ok { content := some fencedResponse, usage := ⟨1, 2, 3⟩ })).outcome.document =
      degradedDoc := ⟨rfl, rfl⟩

/-- Claim C6 (amended): for the Ollama service, normalizing the fenced
response `{"tags":[],"correspondent":null}` yields exactly the result with
empty `tags`, and `correspondent`, `title`, `document_type`, `document_date`,
`language`, `custom_fields` all null, with no error; the custom service's
stricter validation instead rejects the null correspondent with an
invalid-structure error (see the counterexample theorem). -/
theorem ollama_fenced_response_normalizes_all_null :
    processOllamaResponse (some (.str fencedResponse)) =
      .ok (Json.obj [("tags", Json.arr []), ("correspondent", Json.null),
        ("title", Json.null), ("document_date", Json.null),
        ("document_type", Json.null), ("language", Json.null),
        ("custom_fields", Json.null)]) ∧
    (ollamaAnalyzeDocument exampleConfig exampleEnv "c" [] [] [] "1" none optsDefault
      (.ok (some (.str fencedResponse)))).outcome.document =
      Json.obj [("tags", Json.arr []), ("correspondent", Json.null),
        ("title", Json.null), ("document_date", Json.null),
        ("document_type", Json.null), ("language", Json.null),
        ("custom_fields", Json.null)] ∧
    (ollamaAnalyzeDocument exampleConfig exampleEnv "c" [] [] [] "1" none optsDefault
      (.ok (some (.str fencedResponse)))).outcome.error = none ∧
    (ollamaAnalyzeDocument exampleConfig exampleEnv "c" [] [] [] "1" none optsDefault
      (.ok (some (.str fencedResponse)))).outcome.metrics =
      some { promptTokens := 0, completionTokens := 0, totalTokens := 0 } :=
  ⟨rfl, rfl, rfl, rfl⟩

/-- Claim C7: the restriction-enforcement pass of the Ollama
`analyzeDocument` (tag intersection then document-type nulling) is
idempotent on every document and every pair of allow-lists — in particular on
every normalized result. -/
theorem restriction_enforcement_idempotent (opts : AnalysisOptions)
    (tl dl : List String) (doc : Json) :
    enforceRestrictions opts tl dl (enforceRestrictions opts tl dl doc) =
      enforceRestrictions opts tl dl doc := by
  unfold enforceRestrictions
  rw [enforceTagsStep_after, enforceDocTypeStep_idem]

/-- Claim C8: the claim states the intended per-call lifecycle, but the code
violates it. Both services execute
`config.mustHavePrompt = config.mustHavePrompt.replace('%CUSTOMFIELDS%', customFieldsStr)`
(ollamaService line 397, custom service line 154), assigning into the shared
`config` object, so an analysis call mutates state that outlives it and a
second call's prompt assembly reads a template already substituted by the
first — even though the custom-prompt branch of the same file substitutes
without assigning (line 127), showing the non-mutating intent. Evaluated at a
config whose template is the bare placeholder. -/
theorem analyze_mutates_shared_config :
    (ollamaAnalyzeDocument exampleConfig exampleEnv "c" [] [] [] "1" none optsDefault
      (.unreachable "x")).finalConfig.mustHavePrompt =
      "MUST \"custom_fields\":     \x7b\x7d END" ∧
    (customAnalyzeDocument exampleConfig exampleEnv "c" [] [] [] "1" none optsDefault
      (.unreachable "x")).finalConfig.mustHavePrompt =
      "MUST \"custom_fields\":     \x7b\x7d END" ∧
    exampleConfig.mustHavePrompt = "MUST %CUSTOMFIELDS% END" ∧
    (ollamaAnalyzeDocument exampleConfig exampleEnv "c" [] [] [] "1" none optsDefault
      (.unreachable "x")).finalConfig.mustHavePrompt ≠ exampleConfig.mustHavePrompt ∧
    (customAnalyzeDocument exampleConfig exampleEnv "c" [] [] [] "1" none optsDefault
      (.unreachable "x")).finalConfig.mustHavePrompt ≠ exampleConfig.mustHavePrompt := by
  have hne : ("MUST \"custom_fields\":     \x7b\x7d END" : String) ≠
      "MUST %CUSTOMFIELDS% END" := by decide
  exact ⟨rfl, rfl, rfl, hne, hne⟩

/-- Claim C9: the token estimator returns 0 on the empty string, is monotonic
in text length, and is a non-negative integer. (The external-data validator's
estimate `Math.ceil(length / 4)` is the same function.) -/
theorem token_estimator_monotone_zero :
    calculatePromptTokenCount "" = 0 ∧
    (∀ s t : String, s.length ≤ t.length →
      calculatePromptTokenCount s ≤ calculatePromptTokenCount t) ∧
    (∀ s : String, 0 ≤ calculatePromptTokenCount s) := by
  refine ⟨rfl, ?_, fun s => Nat.zero_le _⟩
  intro s t h
  unfold calculatePromptTokenCount
  exact Nat.div_le_div_right (Nat.add_le_add_right h 3)

/-- Witness for Claim C9 at concrete strings. -/
theorem token_estimator_monotone_zero_witness :
    calculatePromptTokenCount "" = 0 ∧
    calculatePromptTokenCount "abc" ≤ calculatePromptTokenCount "abcdefgh" :=
  ⟨token_estimator_monotone_zero.1,
   token_estimator_monotone_zero.2.1 "abc" "abcdefgh" (by decide)⟩

/-- Claim C10: whenever `_parseResponse`'s sanitization fallback is the path
that succeeds (the extracted brace span fails the first parse but parses
after `_sanitizeJsonString`), the returned result has exactly the five
members `tags`, `correspondent`, `title`, `document_date`, `language`:
`document_type` and `custom_fields` are absent, not null — unlike the
seven-field result of every other normalization path. -/
theorem sanitize_fallback_omits_document_type (s span : String) (r : Json)
    (hspan : extractBraceSpan s = some span)
    (hfail : jsonParse span = none)
    (hok : jsonParse (sanitizeJsonString span) = some r) :
    ollamaParseResponseFallback s = sanitizedNormalize r ∧
    jsonGet (sanitizedNormalize r) "document_type" = none ∧
    jsonGet (sanitizedNormalize r) "custom_fields" = none ∧
    jsonKeys (sanitizedNormalize r) =
      ["tags", "correspondent", "title", "document_date", "language"] ∧
    (∀ p : Json,
      jsonGet (normalizeParsed p) "document_type" =
        some (jsOrNull (jsonGet p "document_type")) ∧
      jsonGet (normalizeParsed p) "custom_fields" =
        some (jsOrNull (jsonGet p "custom_fields"))) := by
  refine ⟨?_, rfl, rfl, rfl, fun p => ⟨rfl, rfl⟩⟩
  unfold ollamaParseResponseFallback
  simp only [hspan, hfail, hok]

/-- Witness for Claim C10: a response whose extracted span carries a
`document_type` and a trailing comma; the sanitized parse succeeds, yet the
result omits `document_type` entirely. -/
theorem sanitize_fallback_omits_document_type_witness :
    ollamaParseResponseFallback sanitizeOnlyResponse =
      Json.obj [("tags", Json.arr [Json.str "a"]), ("correspondent", Json.null),
        ("title", Json.null), ("document_date", Json.null), ("language", Json.null)] ∧
    jsonGet (ollamaParseResponseFallback sanitizeOnlyResponse) "document_type" = none := by
  have h := sanitize_fallback_omits_document_type sanitizeOnlyResponse _ _ rfl rfl rfl
  exact ⟨h.1, by rw [h.1]; exact h.2.1⟩
